import Mathlib

/-!
Formal model of the supplier-dashboard core:
the ingestion normalizer (`backend/llm_ingestion.py`, class `DataNormalizer`)
and the risk / prediction engine (`backend/mon_analyse.py`).

Conventions of the shallow embedding:
* pandas cells are modelled by `Cell` (string, exact rational number,
  date as a day number, or missing value NaN/NaT);
* Python float arithmetic is modelled by exact rational arithmetic;
* a dataframe produced by the mapping step is `DF`: a fixed record of the
  seven canonical roles, each column present or absent (`has…` flags), with
  row-aligned cells;
* Python exceptions are modelled with `Except`; the error value carries the
  exception message and, for the normalizer body, the warnings accumulated
  at the moment of the raise (mirroring the mutable `self.warnings`).
-/

/- Restore kernel-reducibility of the basic rational operations so that
concrete runs of the model can be evaluated by `decide` in witnesses. -/
attribute [local semireducible] Rat.add Rat.mul Rat.sub Rat.inv

namespace SupplierDash

/-- A pandas cell value: string, numeric (modelled as an exact rational),
datetime (day number since civil epoch 1970-01-01), or missing (NaN / NaT). -/
inductive Cell where
  | str (s : String)
  | num (q : ℚ)
  | date (d : ℤ)
  | null
deriving DecidableEq

/-- Whitespace predicate used by `str.strip()` (ASCII whitespace model). -/
def isSpaceChar (c : Char) : Bool :=
  c == ' ' || c == '\t' || c == '\n' || c == '\r'

/-- Drop leading whitespace characters (left part of `str.strip()`). -/
def stripLeft (l : List Char) : List Char := l.dropWhile isSpaceChar

/-- Drop trailing whitespace characters (right part of `str.strip()`). -/
def stripRight (l : List Char) : List Char :=
  (l.reverse.dropWhile isSpaceChar).reverse

/-- Model of Python `str.strip()` on the underlying character list. -/
def stripChars (l : List Char) : List Char := stripRight (stripLeft l)

/-- Model of Python `str.strip()`. -/
def pyStrip (s : String) : String := String.mk (stripChars s.toList)

/-- Model of Python `str()` applied to a cell (`astype(str)`).  Only the
rendering of string cells is relied on by any claim; the other renderings
are plausible stand-ins for pandas' textual output. -/
def pyStr (c : Cell) : String :=
  match c with
  | .str s => s
  | .num q => toString q
  | .date d => "day-" ++ toString d
  | .null => "nan"

/-- Numeric content of a cell, with 0 for non-numeric cells.  Used at points
where the source has already coerced the column to numbers. -/
def cellQ (c : Cell) : ℚ :=
  match c with
  | .num q => q
  | _ => 0

/-- String content of a cell, with "" for non-string cells. -/
def cellStrD (c : Cell) : String :=
  match c with
  | .str s => s
  | _ => ""

/-- Digit value of a character. -/
def digitVal (c : Char) : Option ℕ :=
  if c.isDigit then some (c.toNat - '0'.toNat) else none

/-- Parse a non-empty all-digit character list to a natural number. -/
def parseNatDigits : List Char → Option ℕ
  | [] => none
  | l =>
    if l.all Char.isDigit then
      some (l.foldl (fun acc c => 10 * acc + (c.toNat - '0'.toNat)) 0)
    else none

/-- Parse an unsigned decimal literal (digits with an optional single dot),
the core of the model of `pd.to_numeric` on strings. -/
def parseUnsignedDec (l : List Char) : Option ℚ :=
  let ip := l.takeWhile (fun c => c ≠ '.')
  let rest := l.dropWhile (fun c => c ≠ '.')
  match rest with
  | [] => (parseNatDigits ip).map (fun n => (n : ℚ))
  | _ :: fp =>
    if fp.any (fun c => c = '.') then none
    else if ip.isEmpty && fp.isEmpty then none
    else
      match (if ip.isEmpty then some 0 else parseNatDigits ip),
            (if fp.isEmpty then some 0 else parseNatDigits fp) with
      | some i, some f => some ((i : ℚ) + (f : ℚ) / (10 : ℚ) ^ fp.length)
      | _, _ => none

/-- Model of `pd.to_numeric(…, errors='coerce')` on a single string: an
optional sign followed by a decimal literal, surrounding whitespace ignored
(exponent notation is not modelled; no claim depends on it). -/
def parseDec (s : String) : Option ℚ :=
  match stripChars s.toList with
  | '+' :: r => parseUnsignedDec r
  | '-' :: r => (parseUnsignedDec r).map (fun q => -q)
  | r => parseUnsignedDec r

/-- Model of `pd.to_numeric(…, errors='coerce')` on a cell.  Datetime cells
coerce to their nanosecond epoch value, as in pandas. -/
def toNumeric (c : Cell) : Option ℚ :=
  match c with
  | .num q => some q
  | .str s => parseDec s
  | .date d => some (86400000000000 * (d : ℚ))
  | .null => none

/-- Model of `Series.clip(lo, hi)` on one value. -/
def clip (lo hi q : ℚ) : ℚ := max lo (min hi q)

/-- Model of Python `round(q, nd)`: round half to even at `nd` decimals
(exact-rational model of the float rounding in the source). -/
def pyRound (nd : ℕ) (q : ℚ) : ℚ :=
  let m : ℚ := q * (10 : ℚ) ^ nd
  let f : ℤ := ⌊m⌋
  let r : ℚ := m - (f : ℚ)
  let z : ℤ :=
    if r < 1 / 2 then f
    else if 1 / 2 < r then f + 1
    else if f % 2 = 0 then f else f + 1
  (z : ℚ) / (10 : ℚ) ^ nd

/-- Model of Python `int()` on a non-negative float (truncation toward 0). -/
def pyInt (q : ℚ) : ℤ :=
  if 0 ≤ q then ⌊q⌋ else -⌊-q⌋

/-- Maximum of a rational list (`Series.max()`), 0 on the empty list (the
empty case is never consulted numerically by the source). -/
def qmax : List ℚ → ℚ
  | [] => 0
  | h :: t => t.foldl max h

/-- Mean of a rational list (`Series.mean()`); division by zero yields 0 in
the model, the source never consults the empty-mean value. -/
def qmean (l : List ℚ) : ℚ := l.sum / (l.length : ℚ)

/-! ### Calendar model

Dates are day numbers relative to 1970-01-01, computed from a civil
(year, month, day) triple with the standard days-from-civil algorithm, so
that datetime subtraction in days is exact. -/

/-- Leap-year test of the Gregorian calendar. -/
def isLeap (y : ℤ) : Bool :=
  (y % 4 == 0 && y % 100 != 0) || (y % 400 == 0)

/-- Number of days in a month. -/
def daysInMonth (y m : ℤ) : ℤ :=
  if m = 2 then (if isLeap y then 29 else 28)
  else if m = 4 ∨ m = 6 ∨ m = 9 ∨ m = 11 then 30
  else 31

/-- Days since 1970-01-01 of the civil date `(y, m, d)` (days-from-civil). -/
def daysFromCivil (y m d : ℤ) : ℤ :=
  let y1 : ℤ := if m ≤ 2 then y - 1 else y
  let era : ℤ := (if 0 ≤ y1 then y1 else y1 - 399).fdiv 400
  let yoe : ℤ := y1 - era * 400
  let mp : ℤ := if 2 < m then m - 3 else m + 9
  let doy : ℤ := (153 * mp + 2).fdiv 5 + d - 1
  let doe : ℤ := yoe * 365 + yoe.fdiv 4 - yoe.fdiv 100 + doy
  era * 146097 + doe - 719468

/-- Validity of a civil date, as checked by `datetime` construction. -/
def validYMD (y m d : ℤ) : Bool :=
  1 ≤ m && m ≤ 12 && 1 ≤ d && d ≤ daysInMonth y m

/-! ### strptime model for the nine `DataNormalizer.DATE_FORMATS`

Each directive is modelled after the regular expressions CPython's
`_strptime` uses: `%Y` is exactly four digits, `%m` and `%d` prefer two
digits and fall back to one, `%B` is a full month name (case-insensitive),
and the whole string must be consumed. -/

/-- Parse exactly four digits (`%Y`). -/
def parseY4 (l : List Char) : Option (ℤ × List Char) :=
  match l with
  | a :: b :: c :: d :: rest =>
    if a.isDigit && b.isDigit && c.isDigit && d.isDigit then
      some (((1000 * (a.toNat - 48) + 100 * (b.toNat - 48)
              + 10 * (c.toNat - 48) + (d.toNat - 48) : ℕ) : ℤ), rest)
    else none
  | _ => none

/-- Parse a one-or-two-digit field in `1..hi`, preferring two digits
(`%m` with `hi = 12`, `%d` with `hi = 31`). -/
def parseNum2 (hi : ℤ) (l : List Char) : Option (ℤ × List Char) :=
  match l with
  | a :: b :: rest =>
    if a.isDigit && b.isDigit then
      let v : ℤ := ((10 * (a.toNat - 48) + (b.toNat - 48) : ℕ) : ℤ)
      if 1 ≤ v ∧ v ≤ hi then some (v, rest)
      else if a.isDigit ∧ 1 ≤ ((a.toNat - 48 : ℕ) : ℤ) then
        some (((a.toNat - 48 : ℕ) : ℤ), b :: rest)
      else none
    else if a.isDigit && decide (1 ≤ (a.toNat - 48 : ℕ)) then
      some (((a.toNat - 48 : ℕ) : ℤ), b :: rest)
    else none
  | [a] =>
    if a.isDigit && decide (1 ≤ (a.toNat - 48 : ℕ)) then
      some (((a.toNat - 48 : ℕ) : ℤ), [])
    else none
  | [] => none

/-- Full English month names, lower-cased, in order. -/
def monthNames : List String :=
  ["january", "february", "march", "april", "may", "june", "july",
   "august", "september", "october", "november", "december"]

/-- Parse a full month name (`%B`), case-insensitively. -/
def parseMonthName (l : List Char) : Option (ℤ × List Char) :=
  (List.range 12).findSome? (fun i =>
    match monthNames.get? i with
    | none => none
    | some nm =>
      let k := nm.toList.length
      if (l.take k).map Char.toLower = nm.toList then
        some (((i + 1 : ℕ) : ℤ), l.drop k)
      else none)

/-- Expect a literal character. -/
def parseLit (c : Char) (l : List Char) : Option (List Char) :=
  match l with
  | a :: rest => if a = c then some rest else none
  | [] => none

/-- Finish a date parse: require the input to be fully consumed and the
civil date to be valid, and return the day number. -/
def finishDate (y m d : ℤ) (rest : List Char) : Option ℤ :=
  if rest.isEmpty ∧ validYMD y m d then some (daysFromCivil y m d) else none

/-- Parse `Y sep M sep D` (formats `%Y-%m-%d`, `%Y/%m/%d`). -/
def parseYMDsep (sep : Char) (l : List Char) : Option ℤ :=
  match parseY4 l with
  | none => none
  | some (y, r1) =>
    match parseLit sep r1 with
    | none => none
    | some r2 =>
      match parseNum2 12 r2 with
      | none => none
      | some (m, r3) =>
        match parseLit sep r3 with
        | none => none
        | some r4 =>
          match parseNum2 31 r4 with
          | none => none
          | some (d, r5) => finishDate y m d r5

/-- Parse `D sep M sep Y` (formats `%d/%m/%Y`, `%d-%m-%Y`, `%d.%m.%Y`). -/
def parseDMYsep (sep : Char) (l : List Char) : Option ℤ :=
  match parseNum2 31 l with
  | none => none
  | some (d, r1) =>
    match parseLit sep r1 with
    | none => none
    | some r2 =>
      match parseNum2 12 r2 with
      | none => none
      | some (m, r3) =>
        match parseLit sep r3 with
        | none => none
        | some r4 =>
          match parseY4 r4 with
          | none => none
          | some (y, r5) => finishDate y m d r5

/-- Parse `M sep D sep Y` (format `%m/%d/%Y`). -/
def parseMDYsep (sep : Char) (l : List Char) : Option ℤ :=
  match parseNum2 12 l with
  | none => none
  | some (m, r1) =>
    match parseLit sep r1 with
    | none => none
    | some r2 =>
      match parseNum2 31 r2 with
      | none => none
      | some (d, r3) =>
        match parseLit sep r3 with
        | none => none
        | some r4 =>
          match parseY4 r4 with
          | none => none
          | some (y, r5) => finishDate y m d r5

/-- Parse `%Y%m%d` (no separators). -/
def parseYMDcompact (l : List Char) : Option ℤ :=
  match parseY4 l with
  | none => none
  | some (y, r1) =>
    match parseNum2 12 r1 with
    | none => none
    | some (m, r2) =>
      match parseNum2 31 r2 with
      | none => none
      | some (d, r3) => finishDate y m d r3

/-- Parse `%B %d, %Y` ("January 15, 2024"). -/
def parseBdY (l : List Char) : Option ℤ :=
  match parseMonthName l with
  | none => none
  | some (m, r1) =>
    match parseLit ' ' r1 with
    | none => none
    | some r2 =>
      match parseNum2 31 r2 with
      | none => none
      | some (d, r3) =>
        match parseLit ',' r3 with
        | none => none
        | some r4 =>
          match parseLit ' ' r4 with
          | none => none
          | some r5 =>
            match parseY4 r5 with
            | none => none
            | some (y, r6) => finishDate y m d r6

/-- Parse `%d %B %Y` ("15 January 2024"). -/
def parsedBY (l : List Char) : Option ℤ :=
  match parseNum2 31 l with
  | none => none
  | some (d, r1) =>
    match parseLit ' ' r1 with
    | none => none
    | some r2 =>
      match parseMonthName r2 with
      | none => none
      | some (m, r3) =>
        match parseLit ' ' r3 with
        | none => none
        | some r4 =>
          match parseY4 r4 with
          | none => none
          | some (y, r5) => finishDate y m d r5

/-- Model of `datetime.strptime` for the nine entries of
`DataNormalizer.DATE_FORMATS`, indexed in the source's priority order. -/
def strptime9 (i : ℕ) (s : String) : Option ℤ :=
  let l := s.toList
  match i with
  | 0 => parseYMDsep '-' l      -- %Y-%m-%d
  | 1 => parseDMYsep '/' l      -- %d/%m/%Y
  | 2 => parseMDYsep '/' l      -- %m/%d/%Y
  | 3 => parseYMDsep '/' l      -- %Y/%m/%d
  | 4 => parseDMYsep '-' l      -- %d-%m-%Y
  | 5 => parseDMYsep '.' l      -- %d.%m.%Y
  | 6 => parseYMDcompact l      -- %Y%m%d
  | 7 => parseBdY l             -- %B %d, %Y
  | 8 => parsedBY l             -- %d %B %Y
  | _ => none

/-- Parse an ISO date followed by `THH:MM:SS` (accepted by the permissive
fallback parser but by none of the nine explicit formats). -/
def parseIsoT (l : List Char) : Option ℤ :=
  match parseY4 l with
  | none => none
  | some (y, r1) =>
    match parseLit '-' r1 with
    | none => none
    | some r2 =>
      match parseNum2 12 r2 with
      | none => none
      | some (m, r3) =>
        match parseLit '-' r3 with
        | none => none
        | some r4 =>
          match parseNum2 31 r4 with
          | none => none
          | some (d, r5) =>
            match r5 with
            | 'T' :: h1 :: h2 :: ':' :: m1 :: m2 :: ':' :: s1 :: s2 :: rest =>
              if h1.isDigit && h2.isDigit && m1.isDigit && m2.isDigit
                  && s1.isDigit && s2.isDigit && rest.isEmpty then
                if validYMD y m d then some (daysFromCivil y m d) else none
              else none
            | _ => none

/-- Model of the permissive fallback parser
(`pd.to_datetime(…, errors='coerce')` with format inference): accepts
everything the nine explicit formats accept, plus ISO date-times. -/
def parseFallbackStr (s : String) : Option ℤ :=
  match (List.range 9).findSome? (fun i => strptime9 i s) with
  | some d => some d
  | none => parseIsoT s.toList

/-- Model of `pd.to_datetime(cell, format=DATE_FORMATS[i], errors='coerce')`:
cells that are already datetimes pass through unchanged, strings go through
strptime, everything else coerces to NaT. -/
def parseCellFmt (i : ℕ) (c : Cell) : Option ℤ :=
  match c with
  | .date d => some d
  | .str s => strptime9 i s
  | .num _ => none
  | .null => none

/-- Number of nanoseconds in a day. -/
def nsPerDay : ℚ := 86400000000000

/-- Model of the permissive `pd.to_datetime(cell, errors='coerce')` on one
cell: datetimes pass through, strings go through the permissive parser,
numbers are interpreted as nanosecond epochs. -/
def parseCellFallback (c : Cell) : Option ℤ :=
  match c with
  | .date d => some d
  | .str s => parseFallbackStr s
  | .num q => some ⌊q / nsPerDay⌋
  | .null => none

/-- Count of non-null cells (`Series.notna().sum()`). -/
def countNonNull (cells : List Cell) : ℕ :=
  cells.countP (fun c => c ≠ Cell.null)

/-- Count of successful parses in a parsed column. -/
def countSome (l : List (Option ℤ)) : ℕ :=
  l.countP (fun o => o.isSome)

/-- Model of the per-column loop of `DataNormalizer._normalize_dates`
(`llm_ingestion.py:555-576`): try the nine formats in priority order,
breaking at the first whose success count reaches 80% of the non-null
count; otherwise the result of the *last* format is retained; the
permissive fallback replaces the retained result only when its success
count is below 50% of the non-null count.  The comparisons `valid_count >=
original_count * 0.8` and `… < original_count * 0.5` are modelled exactly
over the integers (`5·valid ≥ 4·orig`, `2·valid < orig`).  `tryFmts` is the
format loop with its break. -/
def tryFmts (cells : List Cell) (orig : ℕ) : List ℕ → Option (List (Option ℤ))
  | [] => none
  | i :: rest =>
    let r := cells.map (parseCellFmt i)
    if 4 * orig ≤ 5 * countSome r then some r else tryFmts cells orig rest

/-- Per-column date normalization (see `tryFmts` above). -/
def normalizeDateCol (cells : List Cell) : List Cell :=
  let orig := countNonNull cells
  let parsed :=
    match tryFmts cells orig (List.range 9) with
    | some r => r
    | none => cells.map (parseCellFmt 8)
  let parsed :=
    if 2 * countSome parsed < orig then cells.map parseCellFallback else parsed
  parsed.map (fun o =>
    match o with
    | some d => Cell.date d
    | none => Cell.null)

/-- Declarative restatement of the (amended) date-format selection rule:
use the first format whose success rate reaches 80% of non-null values;
if none does, keep the last format's result unless its success rate is
below 50% of non-null values, in which case use the permissive fallback. -/
def dateColSelectionSpec (cells : List Cell) : List Cell :=
  let orig := countNonNull cells
  let toCells : List (Option ℤ) → List Cell := fun l =>
    l.map (fun o =>
      match o with
      | some d => Cell.date d
      | none => Cell.null)
  match (List.range 9).find? (fun i => 4 * orig ≤ 5 * countSome (cells.map (parseCellFmt i))) with
  | some i => toCells (cells.map (parseCellFmt i))
  | none =>
    if 2 * countSome (cells.map (parseCellFmt 8)) < orig then
      toCells (cells.map parseCellFallback)
    else toCells (cells.map (parseCellFmt 8))

/-! ### Dataframe model for the normalizer

After `_apply_mappings` every column of the working dataframe is one of the
seven canonical roles, so the working frame is a record of seven optional
columns: a presence flag per role plus row-aligned cells.  A column mapped
to a role name outside the seven canonical roles would survive as an extra
pandas column; such extra columns are not tracked by the model (no claim
observes them). -/

/-- One row of the working dataframe.  A field is meaningful only when the
corresponding `DF` flag is set; unset fields stay `Cell.null`. -/
structure Row where
  supplier : Cell := .null
  date_promised : Cell := .null
  date_delivered : Cell := .null
  order_date : Cell := .null
  delay : Cell := .null
  defects : Cell := .null
  quality_score : Cell := .null
deriving DecidableEq

/-- Working dataframe: presence flags for the seven canonical roles and the
list of rows. -/
structure DF where
  hasSupplier : Bool := false
  hasDP : Bool := false
  hasDD : Bool := false
  hasOD : Bool := false
  hasDelay : Bool := false
  hasDefects : Bool := false
  hasQuality : Bool := false
  rows : List Row := []
deriving DecidableEq

/-- Does the frame have at least one column (pandas: a non-empty index was
already established by an earlier column assignment)? -/
def DF.anyCol (df : DF) : Bool :=
  df.hasSupplier || df.hasDP || df.hasDD || df.hasOD || df.hasDelay
    || df.hasDefects || df.hasQuality

/-- Set the field of a canonical role in a row. -/
def Row.setRole (role : String) (c : Cell) (r : Row) : Row :=
  if role = "supplier" then { r with supplier := c }
  else if role = "date_promised" then { r with date_promised := c }
  else if role = "date_delivered" then { r with date_delivered := c }
  else if role = "order_date" then { r with order_date := c }
  else if role = "delay" then { r with delay := c }
  else if role = "defects" then { r with defects := c }
  else if role = "quality_score" then { r with quality_score := c }
  else r

/-- Read the field of a canonical role from a row. -/
def Row.getRole (role : String) (r : Row) : Cell :=
  if role = "supplier" then r.supplier
  else if role = "date_promised" then r.date_promised
  else if role = "date_delivered" then r.date_delivered
  else if role = "order_date" then r.order_date
  else if role = "delay" then r.delay
  else if role = "defects" then r.defects
  else if role = "quality_score" then r.quality_score
  else .null

/-- Set the presence flag of a canonical role. -/
def DF.setFlag (role : String) (df : DF) : DF :=
  if role = "supplier" then { df with hasSupplier := true }
  else if role = "date_promised" then { df with hasDP := true }
  else if role = "date_delivered" then { df with hasDD := true }
  else if role = "order_date" then { df with hasOD := true }
  else if role = "delay" then { df with hasDelay := true }
  else if role = "defects" then { df with hasDefects := true }
  else if role = "quality_score" then { df with hasQuality := true }
  else df

/-- Model of `result[target_col] = df[source_col].copy()`: if the frame has
no column yet, the assignment establishes the rows; otherwise the values are
written into the existing rows position-wise. -/
def DF.setCol (role : String) (vals : List Cell) (df : DF) : DF :=
  let rows :=
    if df.anyCol then df.rows.zipWith (fun r v => Row.setRole role v r) vals
    else vals.map (fun v => Row.setRole role v {})
  { df.setFlag role with rows := rows }

/-- Read a column of the working frame. -/
def DF.getCol (role : String) (df : DF) : List Cell :=
  df.rows.map (Row.getRole role)

/-- Raw input dataframe: arbitrary column names with cell lists. -/
structure RawDF where
  cols : List (String × List Cell)
deriving DecidableEq

/-- Column lookup in the raw frame (`source_col in df.columns` / access). -/
def RawDF.lookup (raw : RawDF) (name : String) : Option (List Cell) :=
  (raw.cols.find? (fun p => p.1 = name)).map (fun p => p.2)

/-- A validation warning (`ValidationWarning`); `sample_values` is omitted
(always defaulted at the construction sites the claims reach). -/
structure Warn where
  severity : String
  message : String
  column : Option String := none
  row_count : ℕ := 0
deriving DecidableEq

/-- An approved-mapping dictionary as received by `normalize`.  Only the two
keys the transformation reads are tracked; `ctorOk` abstracts whether
`ColumnMapping(**m)` succeeds (all required dataclass fields present and no
unexpected keys).  A dict missing `source_column` or `target_role` also
fails the constructor, but the model does not need to enforce that. -/
structure MappingDict where
  source_column : Option String
  target_role : Option String
  ctorOk : Bool
deriving DecidableEq

instance {ε α : Type} [DecidableEq ε] [DecidableEq α] : DecidableEq (Except ε α) :=
  fun x y =>
    match x, y with
    | .ok a, .ok b => if h : a = b then .isTrue (by rw [h]) else .isFalse (by simp [h])
    | .error e, .error f => if h : e = f then .isTrue (by rw [h]) else .isFalse (by simp [h])
    | .ok _, .error _ => .isFalse (by simp)
    | .error _, .ok _ => .isFalse (by simp)

/-- Model of the result record (`IngestionResult`); the transformation log
and the summary dict are not consumed by any claim and are omitted. -/
structure NormResult where
  success : Bool
  dataframe : Option DF
  warnings : List Warn
  detected_case : String
deriving DecidableEq

namespace DataNormalizer

/-- The warning emitted for a missing source column. -/
def warnNotFound (src : String) : Warn :=
  { severity := "warning",
    message := "Source column '" ++ src ++ "' not found in data",
    column := some src }

/-- Model of `DataNormalizer._apply_mappings` (`llm_ingestion.py:515-545`):
walk the approved mappings in order; `ignore` rows are skipped, missing
source columns produce a warning and are skipped, later mappings overwrite
earlier ones for the same role.  Reading `mapping["source_column"]` or
`mapping["target_role"]` on a dict without the key raises `KeyError`; the
error value carries the warnings accumulated so far. -/
def applyMappingsGo (raw : RawDF) :
    List MappingDict → DF → List Warn → Except (String × List Warn) (DF × List Warn)
  | [], df, ws => .ok (df, ws)
  | m :: rest, df, ws =>
    match m.source_column, m.target_role with
    | some src, some role =>
      if role = "ignore" then applyMappingsGo raw rest df ws
      else
        match raw.lookup src with
        | none => applyMappingsGo raw rest df (ws ++ [warnNotFound src])
        | some vals => applyMappingsGo raw rest (df.setCol role vals) ws
    | _, _ => .error ("KeyError", ws)

/-- Apply the approved mappings starting from an empty frame. -/
def applyMappings (raw : RawDF) (ms : List MappingDict) :
    Except (String × List Warn) (DF × List Warn) :=
  applyMappingsGo raw ms {} []

/-- Process one date column, when present: replace the column by the parsed
cells and warn about unparseable values (`llm_ingestion.py:551-593`). -/
def dateColStep (role : String) (present : Bool) (dfw : DF × List Warn) :
    DF × List Warn :=
  if present then
    let df := dfw.1
    let cells := df.getCol role
    let parsed := normalizeDateCol cells
    let invalid := parsed.countP (fun c => c = Cell.null)
    let ws1 :=
      if 0 < invalid then
        dfw.2 ++ [{ severity := "warning",
                    message := toString invalid ++ " invalid dates in '" ++ role ++ "'",
                    column := some role, row_count := invalid }]
      else dfw.2
    ({ df with rows := df.rows.zipWith (fun r v => Row.setRole role v r) parsed },
     ws1)
  else dfw

/-- Model of `DataNormalizer._normalize_dates`: the three date roles are
processed in the source's order. -/
def normalizeDates (dfw : DF × List Warn) : DF × List Warn :=
  let s1 := dateColStep "date_promised" dfw.1.hasDP dfw
  let s2 := dateColStep "date_delivered" s1.1.hasDD s1
  dateColStep "order_date" s2.1.hasOD s2

/-- Model of `DataNormalizer._compute_delay` (`llm_ingestion.py:597-651`).
If a delay column exists it is coerced, null-filled with 0 and clamped at 0,
and the function returns immediately.  Otherwise the delay is computed from
the two dates when both exist, or defaulted to 0 for the `defects_only`
case; finally dummy date columns are created when `date_promised` is still
absent. -/
def computeDelay (now : ℤ) (tc : String) (df : DF) : DF :=
  if df.hasDelay then
    { df with rows := df.rows.map (fun r =>
        { r with delay := .num (max 0 ((toNumeric r.delay).getD 0)) }) }
  else
    let df1 :=
      if df.hasDP && df.hasDD then
        { df with
          hasDelay := true,
          rows := df.rows.map (fun r =>
            { r with delay := .num (
                match r.date_promised, r.date_delivered with
                 | .date p, .date d => max 0 ((d : ℚ) - (p : ℚ))
                 | _, _ => 0) }) }
      else if tc = "defects_only" then
        { df with
          hasDelay := true,
          rows := df.rows.map (fun r => { r with delay := .num 0 }) }
      else df
    if df1.hasDP then df1
    else if df1.hasOD then
      { df1 with
        hasDP := true, hasDD := true,
        rows := df1.rows.map (fun r =>
          { r with date_promised := r.order_date, date_delivered := r.order_date }) }
    else
      { df1 with
        hasDP := true, hasDD := true,
        rows := df1.rows.map (fun r =>
          { r with date_promised := .date now, date_delivered := .date now }) }

/-- Model of `DataNormalizer._normalize_defects` (`llm_ingestion.py:653-727`). -/
def normalizeDefects (tc : String) (dfw : DF × List Warn) : DF × List Warn :=
  let df := dfw.1
  let ws := dfw.2
  let df1 :=
    if df.hasQuality && !df.hasDefects then
      let qs := df.rows.map (fun r => (toNumeric r.quality_score).getD 100)
      if qs.any (fun q => decide (1 < q)) then
        { df with
          hasDefects := true,
          rows := df.rows.map (fun r =>
            { r with defects := .num (
                (100 - clip 0 100 ((toNumeric r.quality_score).getD 100)) / 100) }) }
      else
        { df with
          hasDefects := true,
          rows := df.rows.map (fun r =>
            { r with defects := .num (
                1 - clip 0 1 ((toNumeric r.quality_score).getD 100)) }) }
    else if df.hasDefects then
      let ds := df.rows.map (fun r => (toNumeric r.defects).getD 0)
      if ds.any (fun q => decide (1 < q)) then
        { df with rows := df.rows.map (fun r =>
            { r with defects := .num (((toNumeric r.defects).getD 0) / 100) }) }
      else
        { df with rows := df.rows.map (fun r =>
            { r with defects := .num (clip 0 1 ((toNumeric r.defects).getD 0)) }) }
    else if tc = "delay_only" then
      { df with
        hasDefects := true,
        rows := df.rows.map (fun r => { r with defects := .num 0 }) }
    else df
  let df2 :=
    if df1.hasDefects then df1
    else { df1 with
           hasDefects := true,
           rows := df1.rows.map (fun r => { r with defects := .num 0 }) }
  let invalid := df2.rows.countP (fun r =>
    decide (cellQ r.defects < 0 ∨ 1 < cellQ r.defects))
  if 0 < invalid then
    ({ df2 with rows := df2.rows.map (fun r =>
        { r with defects := .num (clip 0 1 (cellQ r.defects)) }) },
     ws ++ [{ severity := "warning",
              message := toString invalid ++ " defect values were outside [0,1] and clipped",
              column := some "defects", row_count := invalid }])
  else (df2, ws)

/-- Model of `DataNormalizer._clean_suppliers` (`llm_ingestion.py:729-761`). -/
def cleanSuppliers (dfw : DF × List Warn) : DF × List Warn :=
  let df := dfw.1
  let ws := dfw.2
  if !df.hasSupplier then
    (df, ws ++ [{ severity := "error", message := "No supplier column found",
                  column := some "supplier" }])
  else
    let df1 := { df with rows := df.rows.map (fun r =>
      { r with supplier := .str (pyStrip (pyStr r.supplier)) }) }
    let empty := df1.rows.countP (fun r => r.supplier = Cell.str "")
    if 0 < empty then
      (df1, ws ++ [{ severity := "warning",
                     message := toString empty ++ " rows with empty supplier names",
                     column := some "supplier", row_count := empty }])
    else (df1, ws)

/-- Model of `DataNormalizer._validate_data` (`llm_ingestion.py:763-807`):
all four checks run and all failures are collected. -/
def validateData (df : DF) (ws : List Warn) : Bool × List Warn :=
  let (v2, ws2) :=
    if !df.hasSupplier then
      (false, ws ++ [{ severity := "error",
                       message := "Missing required 'supplier' column" }])
    else (true, ws)
  let (v3, ws3) :=
    if df.hasDelay then
      let neg := df.rows.countP (fun r => decide (cellQ r.delay < 0))
      if 0 < neg then
        (false, ws2 ++ [{ severity := "error",
                          message := toString neg ++ " rows with negative delay",
                          column := some "delay", row_count := neg }])
      else (v2, ws2)
    else (v2, ws2)
  let (v4, ws4) :=
    if df.hasDefects then
      let inv := df.rows.countP (fun r =>
        decide (cellQ r.defects < 0 ∨ 1 < cellQ r.defects))
      if 0 < inv then
        (false, ws3 ++ [{ severity := "error",
                          message := toString inv ++ " rows with defects outside [0,1]",
                          column := some "defects", row_count := inv }])
      else (v3, ws3)
    else (v3, ws3)
  if df.rows.length = 0 then
    (false, ws4 ++ [{ severity := "error", message := "No data rows after processing" }])
  else (v4, ws4)

end DataNormalizer

/-- Sort key date of a cell: a day number, or none for anything non-date
(NaT sorts last). -/
def dateKeyCell (c : Cell) : Option ℤ :=
  match c with
  | .date d => some d
  | _ => none

/-- Order on optional day numbers with missing values last. -/
def oleZ : Option ℤ → Option ℤ → Prop
  | _, none => True
  | none, some _ => False
  | some x, some y => x ≤ y

instance : DecidableRel oleZ := fun a b =>
  match a, b with
  | none, none => .isTrue trivial
  | some _, none => .isTrue trivial
  | none, some _ => .isFalse (fun h => h)
  | some x, some y => inferInstanceAs (Decidable (x ≤ y))

/-- Secondary sort cell selected by `_sort_data`: `date_promised` when
present, else `order_date` when present, else a constant. -/
def Row.sortDateCell (useDP useOD : Bool) (r : Row) : Cell :=
  if useDP then r.date_promised else if useOD then r.order_date else .null

/-- Lexicographic strict comparison of character lists by code point
(pandas compares Python strings this way; Lean's builtin `String.lt`
decision procedure does not reduce in the kernel, so the comparison is
spelled out). -/
def strLtB : List Char → List Char → Bool
  | [], [] => false
  | [], _ :: _ => true
  | _ :: _, [] => false
  | a :: as, b :: bs =>
    if a.toNat < b.toNat then true
    else if b.toNat < a.toNat then false
    else strLtB as bs

theorem strLtB_trans : ∀ {a b c : List Char},
    strLtB a b = true → strLtB b c = true → strLtB a c = true
  | [], [], _, h, _ => by simp [strLtB] at h
  | [], _ :: _, [], _, h => by simp [strLtB] at h
  | [], _ :: _, _ :: _, _, _ => by simp [strLtB]
  | _ :: _, [], _, h, _ => by simp [strLtB] at h
  | _ :: _, _ :: _, [], _, h => by simp [strLtB] at h
  | a :: as, b :: bs, c :: cs, h1, h2 => by
    simp only [strLtB] at h1 h2 ⊢
    by_cases hab : a.toNat < b.toNat <;> by_cases hbc : b.toNat < c.toNat
    · simp [Nat.lt_trans hab hbc]
    · simp [hbc] at h2
      rcases h2 with ⟨hcb, h2⟩
      have : a.toNat < c.toNat := by omega
      simp [this]
    · simp [hab] at h1
      rcases h1 with ⟨hba, h1⟩
      have : a.toNat < c.toNat := by omega
      simp [this]
    · simp [hab] at h1
      simp [hbc] at h2
      rcases h1 with ⟨hba, h1⟩
      rcases h2 with ⟨hcb, h2⟩
      have hac : a.toNat = c.toNat := by omega
      simp [hac, Nat.lt_irrefl]
      exact strLtB_trans h1 h2

theorem strLtB_eq_of_not : ∀ {a b : List Char},
    strLtB a b = false → strLtB b a = false → a = b
  | [], [], _, _ => rfl
  | [], _ :: _, h, _ => by simp [strLtB] at h
  | _ :: _, [], _, h => by simp [strLtB] at h
  | a :: as, b :: bs, h1, h2 => by
    simp only [strLtB] at h1 h2
    by_cases hab : a.toNat < b.toNat
    · simp [hab] at h1
    by_cases hba : b.toNat < a.toNat
    · simp [hba] at h2
    simp [hab, hba] at h1 h2
    have hn : a.toNat = b.toNat := by omega
    have hc : a = b :=
      Char.eq_of_val_eq (UInt32.eq_of_toBitVec_eq (BitVec.eq_of_toNat_eq hn))
    rw [hc, strLtB_eq_of_not h1 h2]

/-- Strict order on supplier strings used by the sort. -/
def pyStrLt (s t : String) : Prop := strLtB s.toList t.toList = true

instance : DecidableRel pyStrLt := fun s t =>
  inferInstanceAs (Decidable (_ = true))

/-- Row order used by `df.sort_values(['supplier', <date col>])`:
lexicographic on the supplier string, then the date with NaT last. -/
def rowLe (useDP useOD : Bool) (a b : Row) : Prop :=
  pyStrLt (cellStrD a.supplier) (cellStrD b.supplier) ∨
    (cellStrD a.supplier = cellStrD b.supplier ∧
      oleZ (dateKeyCell (a.sortDateCell useDP useOD)) (dateKeyCell (b.sortDateCell useDP useOD)))

instance (useDP useOD : Bool) : DecidableRel (rowLe useDP useOD) := fun a b =>
  inferInstanceAs (Decidable (_ ∨ _))

theorem pyStrLt_trichot (s t : String) :
    pyStrLt s t ∨ pyStrLt t s ∨ s = t := by
  rcases h1 : strLtB s.toList t.toList with _ | _
  · rcases h2 : strLtB t.toList s.toList with _ | _
    · refine Or.inr (Or.inr ?_)
      have := strLtB_eq_of_not h1 h2
      cases s; cases t
      simpa [String.toList] using congrArg String.mk this
    · exact Or.inr (Or.inl h2)
  · exact Or.inl h1

instance (useDP useOD : Bool) : IsTotal Row (rowLe useDP useOD) := by
  constructor
  intro a b
  rcases pyStrLt_trichot (cellStrD a.supplier) (cellStrD b.supplier) with h | h | h
  · exact Or.inl (Or.inl h)
  · exact Or.inr (Or.inl h)
  · rcases ka : dateKeyCell (a.sortDateCell useDP useOD) with _ | x <;>
      rcases kb : dateKeyCell (b.sortDateCell useDP useOD) with _ | y
    · exact Or.inl (Or.inr ⟨h, by rw [ka, kb]; trivial⟩)
    · exact Or.inr (Or.inr ⟨h.symm, by rw [ka, kb]; trivial⟩)
    · exact Or.inl (Or.inr ⟨h, by rw [ka, kb]; trivial⟩)
    · rcases le_total x y with hxy | hxy
      · exact Or.inl (Or.inr ⟨h, by rw [ka, kb]; exact hxy⟩)
      · exact Or.inr (Or.inr ⟨h.symm, by rw [ka, kb]; exact hxy⟩)

instance (useDP useOD : Bool) : IsTrans Row (rowLe useDP useOD) := by
  constructor
  intro a b c hab hbc
  rcases hab with hab | ⟨hab, dab⟩
  · rcases hbc with hbc | ⟨hbc, _⟩
    · exact Or.inl (strLtB_trans hab hbc)
    · exact Or.inl (hbc ▸ hab)
  · rcases hbc with hbc | ⟨hbc, dbc⟩
    · exact Or.inl (by rw [pyStrLt, hab]; exact hbc)
    · refine Or.inr ⟨hab.trans hbc, ?_⟩
      rcases ka : dateKeyCell (a.sortDateCell useDP useOD) with _ | x <;>
        rcases kb : dateKeyCell (b.sortDateCell useDP useOD) with _ | y <;>
          rcases kc : dateKeyCell (c.sortDateCell useDP useOD) with _ | z <;>
            simp only [oleZ, ka, kb, kc] at dab dbc ⊢ <;> try trivial
      exact dab.trans dbc

namespace DataNormalizer

/-- Model of `DataNormalizer._sort_data` (`llm_ingestion.py:809-818`):
a stable sort by `supplier` then the available date column.  Accessing a
missing `supplier` column raises `KeyError`. -/
def sortDataE (df : DF) : Except String DF :=
  if df.hasSupplier then
    .ok { df with rows := df.rows.insertionSort (rowLe df.hasDP df.hasOD) }
  else .error "KeyError: 'supplier'"

/-- Model of the raising behaviour of `DataNormalizer._generate_summary`
(`llm_ingestion.py:820-852`): with a delay column on an empty frame,
`int(df['delay'].max())` is `int(nan)` and raises `ValueError`; the summary
content itself is not consumed by any claim and is not modelled. -/
def summaryRaises (df : DF) : Bool :=
  df.hasDelay && df.rows.isEmpty

/-- The pure middle of the pipeline (steps 2-5: dates, delay, defects,
suppliers), which cannot raise. -/
def pipeline (now : ℤ) (tc : String) (dfw : DF × List Warn) : DF × List Warn :=
  let s2 := normalizeDates dfw
  let df3 := computeDelay now tc s2.1
  let s4 := normalizeDefects tc (df3, s2.2)
  cleanSuppliers s4

/-- Model of the `try` body of `DataNormalizer.normalize`
(`llm_ingestion.py:465-498`): the pipeline steps in order, producing the
final frame, the accumulated warnings and the validation verdict, or the
first raised exception together with the warnings accumulated at that
point. -/
def bodyE (now : ℤ) (raw : RawDF) (ms : List MappingDict) (tc : String) :
    Except (String × List Warn) (DF × List Warn × Bool) :=
  match applyMappings raw ms with
  | .error e => .error e
  | .ok dw1 =>
    let p := pipeline now tc dw1
    let v := validateData p.1 p.2
    match sortDataE p.1 with
    | .error e => .error (e, v.2)
    | .ok df6 =>
      if summaryRaises df6 then
        .error ("ValueError: cannot convert float NaN to integer", v.2)
      else .ok (df6, v.2, v.1)

/-- Model of `DataNormalizer.normalize` (`llm_ingestion.py:447-513`): run
the pipeline under a `try`; on an exception, append a single error-severity
warning carrying the message and return `success=False` with no dataframe.
Both the success path and the handler construct `ColumnMapping(**m)` for
every approved mapping; if any of those constructions fails, the exception
escapes `normalize` (modelled as an `Except.error`). -/
def normalize (now : ℤ) (raw : RawDF) (ms : List MappingDict) (tc : String) :
    Except String NormResult :=
  match bodyE now raw ms tc with
  | .ok (df, ws, valid) =>
    if ms.all (fun m => m.ctorOk) then
      .ok { success := valid, dataframe := some df, warnings := ws, detected_case := tc }
    else .error "TypeError: ColumnMapping"
  | .error (e, ws) =>
    if ms.all (fun m => m.ctorOk) then
      .ok { success := false, dataframe := none,
            warnings := ws ++ [{ severity := "error",
                                 message := "Normalization failed: " ++ e }],
            detected_case := tc }
    else .error "TypeError: ColumnMapping"

end DataNormalizer

/-! ### Analysis engine (`backend/mon_analyse.py`)

The analysis functions consume the canonical dataset produced by ingestion
(or any appropriately shaped dataset): one row per order with a supplier
name, optional promised/delivered dates, a delay and a defect rate. -/

/-- One canonical analysis row (a row of the dataframe produced by
`charger_donnees`): `delay` and `defects` are numeric and non-null there
(`fillna` has been applied), the dates may be missing. -/
structure ARow where
  supplier : String
  date_promised : Option ℤ
  date_delivered : Option ℤ
  delay : ℚ
  defects : ℚ
deriving DecidableEq

/-- Model of `detecter_tendance` (`mon_analyse.py:29-52`): ordinary
least-squares slope of index-vs-value (the `np.polyfit` degree-1 slope in
closed form); fewer than 2 points is `"stable"`.  The NaN mask of the
source is the identity here because analysis rows carry no NaN. -/
def slopeOLS (l : List ℚ) : ℚ :=
  let n : ℚ := (l.length : ℚ)
  let xs : List ℚ := (List.range l.length).map (fun i => (i : ℚ))
  let sx := xs.sum
  let sy := l.sum
  let sxy := ((xs.zip l).map (fun p => p.1 * p.2)).sum
  let sxx := (xs.map (fun x => x * x)).sum
  (n * sxy - sx * sy) / (n * sxx - sx * sx)

/-- Trend classification against the threshold `seuil` (default 0.01). -/
def detecter_tendance (serie : List ℚ) (seuil : ℚ := 1 / 100) : String :=
  if serie.length < 2 then "stable"
  else
    let pente := slopeOLS serie
    if seuil < pente then "hausse"
    else if pente < -seuil then "baisse"
    else "stable"

/-- Unique values in first-occurrence order (`Series.unique()`). -/
def uniqueStrs (l : List String) : List String :=
  l.foldl (fun acc s => if s ∈ acc then acc else acc ++ [s]) []

/-- Global KPI record: the fixed shape returned by `calculer_kpis_globaux`
(every key always present). -/
structure Kpis where
  taux_retard : ℚ
  taux_defaut : ℚ
  retard_moyen : ℚ
  nb_fournisseurs : ℕ
  nb_commandes : ℕ
  defaut_max : ℚ
  retard_max : ℤ
  commandes_parfaites : ℕ
  taux_conformite : ℚ
deriving DecidableEq

/-- Model of `calculer_kpis_globaux` (`mon_analyse.py:92-122`). -/
def calculer_kpis_globaux (df : List ARow) : Kpis :=
  let total := df.length
  if total = 0 then
    { taux_retard := 0, taux_defaut := 0, retard_moyen := 0,
      nb_fournisseurs := 0, nb_commandes := 0,
      defaut_max := 0, retard_max := 0,
      commandes_parfaites := 0, taux_conformite := 0 }
  else
    let retards := df.countP (fun r => decide (0 < r.delay))
    let parfaites := df.countP (fun r => decide (r.delay = 0 ∧ r.defects = 0))
    let dfRetards := df.filter (fun r => decide (0 < r.delay))
    let retardMoyenSiRetard :=
      if dfRetards.isEmpty then 0 else qmean (dfRetards.map (fun r => r.delay))
    { taux_retard := pyRound 2 ((retards : ℚ) / (total : ℚ) * 100),
      taux_defaut := pyRound 2 (qmean (df.map (fun r => r.defects)) * 100),
      retard_moyen := pyRound 2 retardMoyenSiRetard,
      nb_fournisseurs := (uniqueStrs (df.map (fun r => r.supplier))).length,
      nb_commandes := total,
      defaut_max := pyRound 2 (qmax (df.map (fun r => r.defects)) * 100),
      retard_max := pyInt (qmax (df.map (fun r => r.delay))),
      commandes_parfaites := parfaites,
      taux_conformite := pyRound 2 ((parfaites : ℚ) / (total : ℚ) * 100) }

/-- Per-supplier risk record (`calculer_risques_fournisseurs` output).  The
two volatility fields (sample standard deviations) are irrational in
general and are consumed by no claim; they are omitted from the model. -/
structure RiskRec where
  supplier : String
  score_risque : ℚ
  niveau_risque : String
  status : String
  retard_moyen : ℚ
  taux_defaut : ℚ
  taux_retard : ℚ
  nb_commandes : ℕ
  tendance_defauts : String
  tendance_retards : String
  derniere_commande : String
  jours_depuis_derniere : ℤ
deriving DecidableEq

/-- Maximum of a list of optional day numbers, skipping missing values
(`Series.max()` on datetimes with NaT). -/
def maxOptZ (l : List (Option ℤ)) : Option ℤ :=
  l.foldl
    (fun acc o =>
      match acc, o with
      | none, o => o
      | acc, none => acc
      | some a, some b => some (max a b))
    none

/-- Model rendering of `Timestamp.strftime("%Y-%m-%d")`; only its
injectivity on day numbers matters to the claims. -/
def fmtDay (d : ℤ) : String := "day-" ++ toString d

/-- Composite score of one supplier's canonical subsequence: the capped
sub-scores, the sequential trend adjustments, and the final clamp
(`mon_analyse.py:150-159`). -/
def scoreTotal (sub : List ARow) : ℚ :=
  let retard_moyen := qmean (sub.map (fun r => r.delay))
  let taux_defaut := qmean (sub.map (fun r => r.defects))
  let tendance_defauts := detecter_tendance (sub.map (fun r => r.defects))
  let tendance_retards := detecter_tendance (sub.map (fun r => r.delay))
  let score_retard := min (retard_moyen * 8) 50
  let score_defaut := min (taux_defaut * 800) 50
  let st0 := score_retard + score_defaut
  let st1 := if tendance_defauts = "hausse" then st0 + 15 else st0
  let st2 := if tendance_retards = "hausse" then st1 + 10 else st1
  let st3 := if tendance_defauts = "baisse" then st2 - 5 else st2
  let st4 := if tendance_retards = "baisse" then st3 - 5 else st3
  max 0 (min st4 100)

/-- Build the risk record of one supplier from its canonical subsequence
(the body of the `for supplier in df["supplier"].unique()` loop,
`mon_analyse.py:135-192`). -/
def mkRisk (today : ℤ) (df : List ARow) (s : String) : RiskRec :=
  let sub := df.filter (fun r => decide (r.supplier = s))
  let retard_moyen := qmean (sub.map (fun r => r.delay))
  let taux_defaut := qmean (sub.map (fun r => r.defects))
  let nb_retards := sub.countP (fun r => decide (0 < r.delay))
  let taux_retard_pct := ((nb_retards : ℚ) / (sub.length : ℚ)) * 100
  let tendance_defauts := detecter_tendance (sub.map (fun r => r.defects))
  let tendance_retards := detecter_tendance (sub.map (fun r => r.delay))
  let score_total := scoreTotal sub
  let niveau_risque := if score_total < 25 then "Faible"
    else if score_total < 55 then "Modéré" else "Élevé"
  let status := if score_total < 25 then "good"
    else if score_total < 55 then "warning" else "alert"
  let derniere := maxOptZ (sub.map (fun r => r.date_delivered))
  let derniere_str :=
    match derniere with
    | some d => fmtDay d
    | none =>
      match maxOptZ (sub.map (fun r => r.date_promised)) with
      | some d => fmtDay d
      | none => "N/A"
  let jours :=
    match derniere with
    | some d => today - d
    | none => -1
  { supplier := s,
    score_risque := pyRound 1 score_total,
    niveau_risque := niveau_risque,
    status := status,
    retard_moyen := pyRound 1 retard_moyen,
    taux_defaut := pyRound 2 (taux_defaut * 100),
    taux_retard := pyRound 1 taux_retard_pct,
    nb_commandes := sub.length,
    tendance_defauts := tendance_defauts,
    tendance_retards := tendance_retards,
    derniere_commande := derniere_str,
    jours_depuis_derniere := jours }

/-- Descending order by stored risk score, used by the final
`fournisseurs.sort(key=…, reverse=True)` (stable). -/
def riskGe (a b : RiskRec) : Prop := b.score_risque ≤ a.score_risque

instance : DecidableRel riskGe := fun a b =>
  inferInstanceAs (Decidable (b.score_risque ≤ a.score_risque))

instance : IsTotal RiskRec riskGe :=
  ⟨fun a b => le_total b.score_risque a.score_risque⟩

instance : IsTrans RiskRec riskGe :=
  ⟨fun _ _ _ hab hbc => le_trans hbc hab⟩

/-- Model of `calculer_risques_fournisseurs` (`mon_analyse.py:128-195`). -/
def calculer_risques_fournisseurs (today : ℤ) (df : List ARow) : List RiskRec :=
  if df.isEmpty then []
  else
    ((uniqueStrs (df.map (fun r => r.supplier))).map (mkRisk today df)).insertionSort riskGe

/-- One recommended action (`obtenir_actions_recommandees` output). -/
structure Action where
  supplier : String
  action : String
  priority : String
  raison : String
  delai : String
  impact : String
deriving DecidableEq

/-- Actions emitted for one risk record (one iteration of the loop body of
`obtenir_actions_recommandees`, `mon_analyse.py:205-272`). -/
def actionsFor (f : RiskRec) : List Action :=
  if f.niveau_risque = "Élevé" then
    [{ supplier := f.supplier, action := "🔴 Audit 8D complet requis",
       priority := "high",
       raison := "Score de risque " ++ toString f.score_risque ++ "/100",
       delai := "48h", impact := "Critique" }]
    ++ (if 5 ≤ f.taux_defaut then
        [{ supplier := f.supplier, action := "⚙️ Recalibrer le processus",
           priority := "high",
           raison := "Défauts critiques (" ++ toString f.taux_defaut ++ "%)",
           delai := "Immédiat", impact := "Critique" }]
      else [])
    ++ (if 5 ≤ f.retard_moyen then
        [{ supplier := f.supplier, action := "🚚 Revoir la chaîne logistique",
           priority := "high",
           raison := "Retards importants (" ++ toString f.retard_moyen ++ "j)",
           delai := "Immédiat", impact := "Critique" }]
      else [])
  else if f.niveau_risque = "Modéré" then
    (if f.tendance_retards = "hausse" then
        [{ supplier := f.supplier, action := "🚚 Point logistique hebdomadaire",
           priority := "medium", raison := "Dérive des délais observée",
           delai := "Semaine prochaine", impact := "Moyen" }]
      else [])
    ++ (if f.tendance_defauts = "hausse" then
        [{ supplier := f.supplier, action := "📚 Former les équipes QC",
           priority := "medium", raison := "Qualité en baisse",
           delai := "Dès demain", impact := "Moyen" }]
      else [])
  else
    (if 60 < f.jours_depuis_derniere then
        [{ supplier := f.supplier, action := "📞 Appel de courtoisie",
           priority := "low", raison := "Inactif depuis > 2 mois",
           delai := "Ce mois-ci", impact := "Faible" }]
      else [])

/-- Model of `obtenir_actions_recommandees` (`mon_analyse.py:201-274`):
the flat concatenation, in input order, of each record's actions. -/
def obtenir_actions_recommandees (fs : List RiskRec) : List Action :=
  fs.foldr (fun f acc => actionsFor f ++ acc) []

/-- Order on analysis rows by promised date (`sort_values("date_promised")`,
stable, missing dates last). -/
def aRowDpLe (a b : ARow) : Prop := oleZ a.date_promised b.date_promised

instance : DecidableRel aRowDpLe := fun a b =>
  inferInstanceAs (Decidable (oleZ a.date_promised b.date_promised))

/-- Per-supplier prediction record (`calculer_predictions_avancees`). -/
structure PredRec where
  supplier : String
  predicted_defect : ℚ
  predicted_delay : ℚ
  method_ma_defect : ℚ
  method_ma_delay : ℚ
  method_lr_defect : ℚ
  method_lr_delay : ℚ
  method_exp_defect : ℚ
  method_exp_delay : ℚ
  confiance : String
  nb_commandes_historique : ℕ
deriving DecidableEq

/-- Trailing rolling mean with `min_periods=1`: the last value of
`Series.rolling(window=w, min_periods=1).mean()`, i.e. the mean of the last
`min w n` observations (`w ≥ 1`). -/
def lastRollingMean (w : ℕ) (l : List ℚ) : ℚ :=
  let k := min w l.length
  qmean (l.drop (l.length - k))

/-- Ordinary-least-squares prediction one step beyond the history
(`LinearRegression().fit` on indices then `predict([[len]])`). -/
def lrPredict (l : List ℚ) : ℚ :=
  let n : ℚ := (l.length : ℚ)
  let slope := slopeOLS l
  let xs : List ℚ := (List.range l.length).map (fun i => (i : ℚ))
  let intercept := (l.sum - slope * xs.sum) / n
  intercept + slope * n

/-- Exponential smoothing with factor `alpha`, returning the last smoothed
value (`exponential_smoothing` in the source). -/
def expSmooth (alpha : ℚ) : List ℚ → ℚ
  | [] => 0
  | h :: t => t.foldl (fun s x => alpha * x + (1 - alpha) * s) h

/-- Population variance (`np.var`, ddof = 0). -/
def popVar (l : List ℚ) : ℚ :=
  let mu := qmean l
  qmean (l.map (fun x => (x - mu) * (x - mu)))

/-- Build the prediction record of one supplier from its date-ordered
history of length ≥ 2 (loop body of `calculer_predictions_avancees`,
`mon_analyse.py:292-353`). -/
def mkPred (fenetre : ℕ) (s : String) (sub : List ARow) : PredRec :=
  let ds := sub.map (fun r => r.defects)
  let ys := sub.map (fun r => r.delay)
  let predDefMa := lastRollingMean fenetre ds
  let predDelMa := lastRollingMean fenetre ys
  let predDefLr := max 0 (lrPredict ds)
  let predDelLr := max 0 (lrPredict ys)
  let predDefExp := expSmooth (3 / 10) ds
  let predDelExp := expSmooth (3 / 10) ys
  let predDefFinal := qmean [predDefMa, predDefLr, predDefExp]
  let predDelFinal := qmean [predDelMa, predDelLr, predDelExp]
  let varianceDefects := popVar [predDefMa, predDefLr, predDefExp]
  let confiance :=
    if 1 / 100 < varianceDefects then "basse"
    else if fenetre ≤ sub.length then "haute"
    else "moyenne"
  { supplier := s,
    predicted_defect := pyRound 2 (predDefFinal * 100),
    predicted_delay := pyRound 2 predDelFinal,
    method_ma_defect := pyRound 2 (predDefMa * 100),
    method_ma_delay := pyRound 2 predDelMa,
    method_lr_defect := pyRound 2 (predDefLr * 100),
    method_lr_delay := pyRound 2 predDelLr,
    method_exp_defect := pyRound 2 (predDefExp * 100),
    method_exp_delay := pyRound 2 predDelExp,
    confiance := confiance,
    nb_commandes_historique := sub.length }

/-- Model of `calculer_predictions_avancees` (`mon_analyse.py:280-355`):
per supplier in first-occurrence order, sort the history by promised date,
skip suppliers with fewer than 2 observations (the `LinearRegression`
`try`/`except` never fires for histories of length ≥ 2). -/
def calculer_predictions_avancees (df : List ARow) (fenetre : ℕ := 3) : List PredRec :=
  if df.isEmpty then []
  else
    (uniqueStrs (df.map (fun r => r.supplier))).filterMap (fun s =>
      let sub := (df.filter (fun r => decide (r.supplier = s))).insertionSort aRowDpLe
      if sub.length < 2 then none
      else some (mkPred fenetre s sub))

/-! ## Claims -/

/-! ### C9 — empty-input KPIs -/

/-- C9: when the input dataset is empty, `calculer_kpis_globaux` returns
the fixed zero-filled shape with every key present (`taux_retard:0,
taux_defaut:0, retard_moyen:0, nb_fournisseurs:0, nb_commandes:0,
defaut_max:0, retard_max:0, commandes_parfaites:0, taux_conformite:0`); it
is a total function on the model (never raises) and the result record
always carries all nine keys. -/
theorem C9_empty_kpis :
    calculer_kpis_globaux [] =
      { taux_retard := 0, taux_defaut := 0, retard_moyen := 0,
        nb_fournisseurs := 0, nb_commandes := 0,
        defaut_max := 0, retard_max := 0,
        commandes_parfaites := 0, taux_conformite := 0 } := rfl

/-! ### C6 — date-format selection

The claim says: the first of the nine formats whose success rate reaches
80% of the non-null values is accepted, *and if no format reaches 80% the
permissive fallback parser is used*.  The second half does not match the
code: after the loop, `parsed_dates` still holds the result of the last
format, and the fallback at `llm_ingestion.py:569-570` replaces it only
when its success count is below 50% of the non-null count. -/

/-- Auxiliary: the format loop returns the first format's result whose
success count reaches the 80% threshold. -/
theorem tryFmts_eq_find (cells : List Cell) (orig : ℕ) (is : List ℕ) :
    tryFmts cells orig is
      = (is.find? (fun i =>
            decide (4 * orig ≤ 5 * countSome (cells.map (parseCellFmt i))))).map
          (fun i => cells.map (parseCellFmt i)) := by
  induction is with
  | nil => rfl
  | cons i rest ih =>
    simp only [tryFmts, List.find?]
    by_cases h : 4 * orig ≤ 5 * countSome (cells.map (parseCellFmt i))
    · simp [h]
    · simp [h, ih]

/-- A concrete column on which no explicit format reaches 80%: two out of
three cells parse only under the last format `%d %B %Y`, the third only
under the ISO-with-time form accepted by the permissive parser. -/
def C6col : List Cell :=
  [Cell.str "15 January 2024", Cell.str "15 January 2024",
   Cell.str "2024-01-15T10:00:00"]

/-- C6, counterexample: on `C6col` no format reaches the 80% success
threshold, yet the returned column is not the permissive-parser column (the
last format's 2-of-3 result is retained because it reaches 50%), refuting
"if no format reaches 80% the permissive fallback parser is used". -/
theorem C6_counterexample_fallback_not_used :
    (∀ i ∈ List.range 9,
        5 * countSome (C6col.map (parseCellFmt i)) < 4 * countNonNull C6col) ∧
      normalizeDateCol C6col ≠
        C6col.map (fun c =>
          match parseCellFallback c with
          | some d => Cell.date d
          | none => Cell.null) := by
  constructor
  · decide
  · decide

/-- C6, amended: for each date column, the first of the nine formats whose
success rate is ≥ 80% of non-null values is accepted; if no format reaches
80%, the result of the last format is retained, and the permissive fallback
parser is used only when the retained result's success rate is below 50% of
non-null values. -/
theorem C6_amended_date_format_selection (cells : List Cell) :
    normalizeDateCol cells = dateColSelectionSpec cells := by
  simp only [normalizeDateCol, dateColSelectionSpec, tryFmts_eq_find]
  cases hf : (List.range 9).find? (fun i =>
      decide (4 * countNonNull cells ≤ 5 * countSome (cells.map (parseCellFmt i)))) with
  | none =>
    by_cases h : 2 * countSome (cells.map (parseCellFmt 8)) < countNonNull cells <;>
      simp [h]
  | some i =>
    have hp0 := List.find?_some hf
    have hp : 4 * countNonNull cells ≤ 5 * countSome (cells.map (parseCellFmt i)) :=
      of_decide_eq_true hp0
    have hng : ¬ (2 * countSome (cells.map (parseCellFmt i)) < countNonNull cells) := by
      omega
    simp [hng]

/-! ### C8 — actions for the Modéré tier

The claim says every Modéré supplier gets a training/monitoring action,
plus an additional one when a trend is rising.  In the code
(`mon_analyse.py:242-261`) the Modéré branch emits an action *only* when a
trend is rising: one weekly-logistics action for a rising delay trend and
one QC-training action for a rising defect trend; a Modéré supplier with
neither trend rising gets no action at all. -/

/-- Auxiliary: an action emitted for a member record is in the flat output
list. -/
theorem mem_obtenir_actions {fs : List RiskRec} {f : RiskRec} {a : Action}
    (hf : f ∈ fs) (ha : a ∈ actionsFor f) :
    a ∈ obtenir_actions_recommandees fs := by
  induction fs with
  | nil => cases hf
  | cons g rest ih =>
    rcases List.mem_cons.mp hf with rfl | hf2
    · exact List.mem_append.mpr (Or.inl ha)
    · exact List.mem_append.mpr (Or.inr (ih hf2))

/-- A one-row dataset whose single supplier lands in the Modéré tier with
both trends stable (mean delay 25/8 gives a composite score of exactly 25). -/
def C8df : List ARow := [⟨"S", some 0, some 0, 25 / 8, 0⟩]

/-- C8, counterexample: the risk list computed from `C8df` contains exactly
one record, tiered "Modéré" with both trends "stable", and the
recommended-action list for that risk list is empty — so the claim's
unconditional training/monitoring action for Modéré suppliers does not
exist. -/
theorem C8_counterexample_modere_no_action :
    ((calculer_risques_fournisseurs 100 C8df).map
        (fun f => (f.niveau_risque, f.tendance_retards, f.tendance_defauts))
      = [("Modéré", "stable", "stable")]) ∧
      obtenir_actions_recommandees (calculer_risques_fournisseurs 100 C8df) = [] := by
  exact ⟨by decide, by decide⟩

/-- C8, amended: for every record of the risk list whose tier is "Modéré",
the returned action list contains a medium-priority weekly-logistics action
for that supplier whenever its delay trend is "hausse", and a
medium-priority QC-training action whenever its defect trend is "hausse";
a Modéré record with neither trend rising contributes no action. -/
theorem C8_amended_modere_actions (fs : List RiskRec) (f : RiskRec)
    (hmem : f ∈ fs) (hmod : f.niveau_risque = "Modéré") :
    (f.tendance_retards = "hausse" →
      ({ supplier := f.supplier, action := "🚚 Point logistique hebdomadaire",
         priority := "medium", raison := "Dérive des délais observée",
         delai := "Semaine prochaine", impact := "Moyen" } : Action)
        ∈ obtenir_actions_recommandees fs) ∧
    (f.tendance_defauts = "hausse" →
      ({ supplier := f.supplier, action := "📚 Former les équipes QC",
         priority := "medium", raison := "Qualité en baisse",
         delai := "Dès demain", impact := "Moyen" } : Action)
        ∈ obtenir_actions_recommandees fs) ∧
    (f.tendance_retards ≠ "hausse" → f.tendance_defauts ≠ "hausse" →
      actionsFor f = []) := by
  refine ⟨fun hr => ?_, fun hd => ?_, fun hr hd => ?_⟩
  · refine mem_obtenir_actions hmem ?_
    simp [actionsFor, hmod, hr]
  · refine mem_obtenir_actions hmem ?_
    simp [actionsFor, hmod, hd]
  · simp [actionsFor, hmod, hr, hd]

/-- A Modéré record with both trends rising, used to instantiate the
amended C8 theorem. -/
def C8wrec : RiskRec :=
  { supplier := "W", score_risque := 30, niveau_risque := "Modéré",
    status := "warning", retard_moyen := 2, taux_defaut := 1,
    taux_retard := 10, nb_commandes := 4, tendance_defauts := "hausse",
    tendance_retards := "hausse", derniere_commande := "day-0",
    jours_depuis_derniere := 3 }

/-- Witness for the amended C8 theorem at a concrete Modéré record with
both trends rising. -/
theorem C8_amended_modere_actions_witness :
    C8wrec ∈ [C8wrec] ∧ C8wrec.niveau_risque = "Modéré" ∧
      ((C8wrec.tendance_retards = "hausse" →
        ({ supplier := C8wrec.supplier, action := "🚚 Point logistique hebdomadaire",
           priority := "medium", raison := "Dérive des délais observée",
           delai := "Semaine prochaine", impact := "Moyen" } : Action)
          ∈ obtenir_actions_recommandees [C8wrec]) ∧
      (C8wrec.tendance_defauts = "hausse" →
        ({ supplier := C8wrec.supplier, action := "📚 Former les équipes QC",
           priority := "medium", raison := "Qualité en baisse",
           delai := "Dès demain", impact := "Moyen" } : Action)
          ∈ obtenir_actions_recommandees [C8wrec]) ∧
      (C8wrec.tendance_retards ≠ "hausse" → C8wrec.tendance_defauts ≠ "hausse" →
        actionsFor C8wrec = [])) :=
  ⟨List.mem_singleton.mpr rfl, rfl,
    C8_amended_modere_actions [C8wrec] C8wrec (List.mem_singleton.mpr rfl) rfl⟩

/-! ### C3 and C4 — composite risk score and tier assignment -/

/-- Composite risk score as the spec words it: two independently capped
sub-scores summed, adjusted by +15 / +10 for rising defect / delay trends
and −5 for each falling trend, and clamped to [0, 100]. -/
def specScore (sub : List ARow) : ℚ :=
  let retard_moyen := qmean (sub.map (fun r => r.delay))
  let taux_defaut := qmean (sub.map (fun r => r.defects))
  let base := min (retard_moyen * 8) 50 + min (taux_defaut * 800) 50
  let adj :=
    (if detecter_tendance (sub.map (fun r => r.defects)) = "hausse" then (15 : ℚ) else 0)
    + (if detecter_tendance (sub.map (fun r => r.delay)) = "hausse" then 10 else 0)
    - (if detecter_tendance (sub.map (fun r => r.defects)) = "baisse" then 5 else 0)
    - (if detecter_tendance (sub.map (fun r => r.delay)) = "baisse" then 5 else 0)
  max 0 (min (base + adj) 100)

/-- The sequential adjustment chain of the source equals the summed
adjustment of the spec. -/
theorem scoreTotal_eq_spec (sub : List ARow) : scoreTotal sub = specScore sub := by
  simp only [scoreTotal, specScore]
  split_ifs <;> (congr 1 <;> congr 1 <;> try ring)

/-- Auxiliary: every record of the risk list is `mkRisk` of some supplier
of the dataset. -/
theorem mem_risques {today : ℤ} {df : List ARow} {rec : RiskRec}
    (h : rec ∈ calculer_risques_fournisseurs today df) :
    ∃ s, s ∈ uniqueStrs (df.map (fun r => r.supplier)) ∧ rec = mkRisk today df s := by
  unfold calculer_risques_fournisseurs at h
  cases hd : df.isEmpty with
  | true => rw [hd] at h; simp at h
  | false =>
    rw [hd] at h
    simp only [if_neg Bool.false_ne_true, List.mem_insertionSort, List.mem_map] at h
    obtain ⟨s, hs, hrec⟩ := h
    exact ⟨s, hs, hrec.symm⟩

/-- C3: every record of the risk list carries, up to the stored one-decimal
rounding, the composite score `min(retard_moyen*8, 50) +
min(taux_defaut*800, 50)`, adjusted by +15 for a rising defect trend, +10
for a rising delay trend and −5 per falling trend, clamped to [0, 100],
recomputed from that supplier's rows. -/
theorem C3_risk_score_formula (today : ℤ) (df : List ARow) (rec : RiskRec)
    (hmem : rec ∈ calculer_risques_fournisseurs today df) :
    rec.score_risque =
      pyRound 1 (specScore (df.filter (fun r => decide (r.supplier = rec.supplier)))) := by
  obtain ⟨s, _, rfl⟩ := mem_risques hmem
  rw [show (mkRisk today df s).supplier = s from rfl]
  show (mkRisk today df s).score_risque = _
  simp only [mkRisk]
  rw [scoreTotal_eq_spec]

/-- Dataset for the C3 witness: one supplier, two orders with rising delay
and defect trends. -/
def C3df : List ARow :=
  [⟨"A", some 5, some 9, 2, 1 / 10⟩, ⟨"A", some 6, some 9, 4, 3 / 10⟩]

/-- Witness for C3 at a concrete dataset. -/
theorem C3_risk_score_formula_witness :
    ((calculer_risques_fournisseurs 10 C3df).get ⟨0, by decide⟩)
        ∈ calculer_risques_fournisseurs 10 C3df ∧
      ((calculer_risques_fournisseurs 10 C3df).get ⟨0, by decide⟩).score_risque =
        pyRound 1 (specScore (C3df.filter (fun r =>
          decide (r.supplier =
            ((calculer_risques_fournisseurs 10 C3df).get ⟨0, by decide⟩).supplier)))) :=
  ⟨List.get_mem _ _ _,
    C3_risk_score_formula 10 C3df _ (List.get_mem _ _ _)⟩

/-- C4: tier assignment uses strict `<` on the (unrounded) composite score:
below 25 gives Faible/good, from 25 up to below 55 gives Modéré/warning,
otherwise Élevé/alert; in particular a score of exactly 25 falls in the
Modéré branch and a score of exactly 55 in the Élevé branch (demonstrated
at concrete inputs in the witness). -/
theorem C4_risk_tier_assignment (today : ℤ) (df : List ARow) (rec : RiskRec)
    (hmem : rec ∈ calculer_risques_fournisseurs today df) :
    rec.niveau_risque =
      (if specScore (df.filter (fun r => decide (r.supplier = rec.supplier))) < 25
        then "Faible"
        else if specScore (df.filter (fun r => decide (r.supplier = rec.supplier))) < 55
          then "Modéré" else "Élevé") ∧
    rec.status =
      (if specScore (df.filter (fun r => decide (r.supplier = rec.supplier))) < 25
        then "good"
        else if specScore (df.filter (fun r => decide (r.supplier = rec.supplier))) < 55
          then "warning" else "alert") := by
  obtain ⟨s, _, rfl⟩ := mem_risques hmem
  rw [show (mkRisk today df s).supplier = s from rfl]
  constructor
  · show (mkRisk today df s).niveau_risque = _
    simp only [mkRisk]
    rw [scoreTotal_eq_spec]
  · show (mkRisk today df s).status = _
    simp only [mkRisk]
    rw [scoreTotal_eq_spec]

/-- One-row dataset with composite score exactly 25 (mean delay 25/8, no
defects, stable trends). -/
def C4df25 : List ARow := [⟨"S", none, none, 25 / 8, 0⟩]

/-- One-row dataset with composite score exactly 55 (capped delay sub-score
50 plus defect sub-score 5). -/
def C4df55 : List ARow := [⟨"T", none, none, 7, 1 / 160⟩]

/-- Witness for C4 at the two boundary scores: exactly 25 is tiered
"Modéré" and exactly 55 is tiered "Élevé". -/
theorem C4_risk_tier_assignment_witness :
    ((calculer_risques_fournisseurs 0 C4df25).get ⟨0, by decide⟩)
        ∈ calculer_risques_fournisseurs 0 C4df25 ∧
      specScore (C4df25.filter (fun r =>
        decide (r.supplier =
          ((calculer_risques_fournisseurs 0 C4df25).get ⟨0, by decide⟩).supplier))) = 25 ∧
      (((calculer_risques_fournisseurs 0 C4df25).get ⟨0, by decide⟩).niveau_risque =
          (if specScore (C4df25.filter (fun r =>
              decide (r.supplier =
                ((calculer_risques_fournisseurs 0 C4df25).get ⟨0, by decide⟩).supplier))) < 25
            then "Faible"
            else if specScore (C4df25.filter (fun r =>
                decide (r.supplier =
                  ((calculer_risques_fournisseurs 0 C4df25).get ⟨0, by decide⟩).supplier))) < 55
              then "Modéré" else "Élevé") ∧
        ((calculer_risques_fournisseurs 0 C4df25).get ⟨0, by decide⟩).status =
          (if specScore (C4df25.filter (fun r =>
              decide (r.supplier =
                ((calculer_risques_fournisseurs 0 C4df25).get ⟨0, by decide⟩).supplier))) < 25
            then "good"
            else if specScore (C4df25.filter (fun r =>
                decide (r.supplier =
                  ((calculer_risques_fournisseurs 0 C4df25).get ⟨0, by decide⟩).supplier))) < 55
              then "warning" else "alert")) ∧
      ((calculer_risques_fournisseurs 0 C4df25).get ⟨0, by decide⟩).niveau_risque = "Modéré" ∧
      specScore (C4df55.filter (fun r =>
        decide (r.supplier =
          ((calculer_risques_fournisseurs 0 C4df55).get ⟨0, by decide⟩).supplier))) = 55 ∧
      ((calculer_risques_fournisseurs 0 C4df55).get ⟨0, by decide⟩).niveau_risque = "Élevé" :=
  ⟨List.get_mem _ _ _, by decide,
    C4_risk_tier_assignment 0 C4df25 _ (List.get_mem _ _ _),
    by decide, by decide, by decide⟩

/-! ### C7 — prediction confidence label

The claim orders the conditions as: "haute" if the history length reaches
the window, "basse" if the variance across the three defect-method
predictions exceeds 0.01, else "moyenne".  The source
(`mon_analyse.py:339`) tests the variance *first*: a supplier with a long
history but disagreeing methods is labelled "basse", not "haute". -/

/-- A supplier with exactly 3 ordered observations (= the default window)
whose defect history [0, 0, 1] makes the three methods disagree strongly
(population variance of the three defect predictions ≈ 0.23 > 0.01). -/
def C7df : List ARow :=
  [⟨"A", some 0, none, 0, 0⟩, ⟨"A", some 1, none, 0, 0⟩, ⟨"A", some 2, none, 0, 1⟩]

/-- C7, counterexample: the prediction for `C7df` has a history length of
3 ≥ window 3, yet its confidence label is "basse", refuting the claim that
the label is "haute" whenever the history length reaches the window. -/
theorem C7_counterexample_confidence :
    (calculer_predictions_avancees C7df 3).map
        (fun p => (p.confiance, p.nb_commandes_historique))
      = [("basse", 3)] := by decide

/-- C7, amended: the confidence label is "basse" whenever the population
variance across the three defect-method predictions exceeds 0.01;
otherwise it is "haute" when the history length reaches the window, else
"moyenne" (the variance test takes priority over the length test). -/
theorem C7_amended_confidence_priority (df : List ARow) (fenetre : ℕ) (p : PredRec)
    (hw : 1 ≤ fenetre)
    (hmem : p ∈ calculer_predictions_avancees df fenetre) :
    p.confiance =
      (let sub := (df.filter (fun r => decide (r.supplier = p.supplier))).insertionSort aRowDpLe
       let ds := sub.map (fun r => r.defects)
       if 1 / 100 <
           popVar [lastRollingMean fenetre ds, max 0 (lrPredict ds), expSmooth (3 / 10) ds]
         then "basse"
       else if fenetre ≤ sub.length then "haute"
       else "moyenne") := by
  unfold calculer_predictions_avancees at hmem
  cases hd : df.isEmpty with
  | true => rw [hd] at hmem; simp at hmem
  | false =>
    rw [hd] at hmem
    simp only [if_neg Bool.false_ne_true, List.mem_filterMap] at hmem
    obtain ⟨s, _, heq⟩ := hmem
    by_cases hlen :
        ((df.filter (fun r => decide (r.supplier = s))).insertionSort aRowDpLe).length < 2
    · rw [if_pos hlen] at heq; cases heq
    · rw [if_neg hlen] at heq
      obtain rfl := Option.some_injective _ heq
      rfl

/-- Witness for the amended C7 theorem on the concrete dataset `C7df`. -/
theorem C7_amended_confidence_priority_witness :
    1 ≤ 3 ∧
      ((calculer_predictions_avancees C7df 3).get ⟨0, by decide⟩)
          ∈ calculer_predictions_avancees C7df 3 ∧
      ((calculer_predictions_avancees C7df 3).get ⟨0, by decide⟩).confiance =
        (let sub := (C7df.filter (fun r =>
            decide (r.supplier =
              ((calculer_predictions_avancees C7df 3).get ⟨0, by decide⟩).supplier))).insertionSort
            aRowDpLe
         let ds := sub.map (fun r => r.defects)
         if 1 / 100 <
             popVar [lastRollingMean 3 ds, max 0 (lrPredict ds), expSmooth (3 / 10) ds]
           then "basse"
         else if 3 ≤ sub.length then "haute"
         else "moyenne") :=
  ⟨by decide, List.get_mem _ _ _,
    C7_amended_confidence_priority C7df 3 _ (by decide) (List.get_mem _ _ _)⟩

/-! ### C2 — the normalize boundary never raises

The claim is universal over the mappings list, but `normalize` constructs
`ColumnMapping(**m)` for every approved mapping both on the success path
(`llm_ingestion.py:493`) and inside the `except` handler (line 508).  A
malformed mapping dict (e.g. `{}`) therefore raises `KeyError` inside the
`try`, and the handler itself then raises `TypeError` from the
`ColumnMapping` constructor — which propagates to the caller. -/

/-- C2, counterexample: with the malformed mapping dict `{}` (no keys, so
the `ColumnMapping` constructor fails), `normalize` propagates an exception
instead of returning `success=false`. -/
theorem C2_counterexample_normalize_raises :
    DataNormalizer.normalize 0 ⟨[]⟩ [⟨none, none, false⟩] "mixed"
      = .error "TypeError: ColumnMapping" := by decide

/-- C2, amended: whenever every approved mapping dict is well-formed (the
`ColumnMapping` constructor accepts it), `normalize` never propagates an
exception: it returns a result, and if the pipeline body raised internally
the result has `success=false`, no dataframe, and the warnings recorded at
the raise followed by a single error-severity warning carrying the
exception message. -/
theorem C2_amended_no_exception (now : ℤ) (raw : RawDF) (ms : List MappingDict)
    (tc : String) (hok : ∀ m ∈ ms, m.ctorOk = true) :
    ∃ res, DataNormalizer.normalize now raw ms tc = .ok res ∧
      ∀ e ws, DataNormalizer.bodyE now raw ms tc = .error (e, ws) →
        res.success = false ∧ res.dataframe = none ∧
        res.warnings = ws ++ [{ severity := "error",
                                message := "Normalization failed: " ++ e }] := by
  have hall : ms.all (fun m => m.ctorOk) = true :=
    List.all_eq_true.mpr (fun m hm => hok m hm)
  unfold DataNormalizer.normalize
  cases hb : DataNormalizer.bodyE now raw ms tc with
  | ok t =>
    obtain ⟨df, ws, valid⟩ := t
    refine ⟨_, by rw [hall]; rfl, ?_⟩
    intro e ws2 habs
    simp at habs
  | error t =>
    obtain ⟨e0, ws0⟩ := t
    refine ⟨_, by rw [hall]; rfl, ?_⟩
    intro e ws2 habs
    have hpair : e0 = e ∧ ws0 = ws2 := by simpa using habs
    obtain ⟨rfl, rfl⟩ := hpair
    exact ⟨rfl, rfl, rfl⟩

/-- Witness for the amended C2 theorem at a concrete well-formed mapping
list. -/
theorem C2_amended_no_exception_witness :
    (∀ m ∈ ([⟨some "c", some "supplier", true⟩] : List MappingDict), m.ctorOk = true) ∧
      ∃ res, DataNormalizer.normalize 0 ⟨[("c", [Cell.str "x"])]⟩
          [⟨some "c", some "supplier", true⟩] "mixed" = .ok res ∧
        ∀ e ws, DataNormalizer.bodyE 0 ⟨[("c", [Cell.str "x"])]⟩
            [⟨some "c", some "supplier", true⟩] "mixed" = .error (e, ws) →
          res.success = false ∧ res.dataframe = none ∧
          res.warnings = ws ++ [{ severity := "error",
                                  message := "Normalization failed: " ++ e }] :=
  ⟨by decide,
    C2_amended_no_exception 0 ⟨[("c", [Cell.str "x"])]⟩
      [⟨some "c", some "supplier", true⟩] "mixed" (by decide)⟩

/-! ### Shared structural lemmas about the normalizer pipeline -/

namespace DataNormalizer

/-- Eliminate a successful `normalize` with a present dataframe into the
underlying successful body run. -/
theorem normalize_ok_elim {now : ℤ} {raw : RawDF} {ms : List MappingDict}
    {tc : String} {res : NormResult} {out : DF}
    (h : normalize now raw ms tc = .ok res) (hdf : res.dataframe = some out) :
    ∃ ws valid, bodyE now raw ms tc = .ok (out, ws, valid) ∧
      res.success = valid ∧ res.warnings = ws := by
  cases hb : bodyE now raw ms tc with
  | ok t =>
    obtain ⟨df, ws, valid⟩ := t
    have hn : normalize now raw ms tc =
        (if (ms.all fun m => m.ctorOk) = true then
          Except.ok { success := valid, dataframe := some df,
                      warnings := ws, detected_case := tc }
        else Except.error "TypeError: ColumnMapping") := by
      unfold normalize; rw [hb]
    rw [hn] at h
    by_cases hall : (ms.all fun m => m.ctorOk) = true
    · rw [if_pos hall] at h
      have hres := Except.ok.inj h
      subst hres
      obtain rfl : df = out := Option.some.inj hdf
      exact ⟨ws, valid, rfl, rfl, rfl⟩
    · rw [if_neg hall] at h
      exact Except.noConfusion h
  | error t =>
    obtain ⟨e0, ws0⟩ := t
    have hn : normalize now raw ms tc =
        (if (ms.all fun m => m.ctorOk) = true then
          Except.ok { success := false, dataframe := none,
                      warnings := ws0 ++ [⟨"error", "Normalization failed: " ++ e0, none, 0⟩],
                      detected_case := tc }
        else Except.error "TypeError: ColumnMapping") := by
      unfold normalize; rw [hb]
    rw [hn] at h
    by_cases hall : (ms.all fun m => m.ctorOk) = true
    · rw [if_pos hall] at h
      have hres := Except.ok.inj h
      subst hres
      exact Option.noConfusion hdf
    · rw [if_neg hall] at h
      exact Except.noConfusion h

/-- Eliminate a successful body run into its stages. -/
theorem bodyE_ok_elim {now : ℤ} {raw : RawDF} {ms : List MappingDict}
    {tc : String} {df6 : DF} {ws6 : List Warn} {valid : Bool}
    (h : bodyE now raw ms tc = .ok (df6, ws6, valid)) :
    ∃ dw1, applyMappings raw ms = .ok dw1 ∧
      sortDataE (pipeline now tc dw1).1 = .ok df6 ∧
      ws6 = (validateData (pipeline now tc dw1).1 (pipeline now tc dw1).2).2 ∧
      valid = (validateData (pipeline now tc dw1).1 (pipeline now tc dw1).2).1 ∧
      summaryRaises df6 = false := by
  cases ha : applyMappings raw ms with
  | error e =>
    have hn : bodyE now raw ms tc = .error e := by
      unfold bodyE; rw [ha]
    rw [hn] at h
    exact Except.noConfusion h
  | ok dw1 =>
    cases hs : sortDataE (pipeline now tc dw1).1 with
    | error e =>
      have hn : bodyE now raw ms tc =
          .error (e, (validateData (pipeline now tc dw1).1 (pipeline now tc dw1).2).2) := by
        unfold bodyE; rw [ha]; simp only; rw [hs]
      rw [hn] at h
      exact Except.noConfusion h
    | ok df6' =>
      have hn : bodyE now raw ms tc =
          (if summaryRaises df6' = true then
            Except.error ("ValueError: cannot convert float NaN to integer",
              (validateData (pipeline now tc dw1).1 (pipeline now tc dw1).2).2)
          else Except.ok (df6',
            (validateData (pipeline now tc dw1).1 (pipeline now tc dw1).2).2,
            (validateData (pipeline now tc dw1).1 (pipeline now tc dw1).2).1)) := by
        unfold bodyE; rw [ha]; simp only; rw [hs]
      rw [hn] at h
      by_cases hr : summaryRaises df6' = true
      · rw [if_pos hr] at h
        exact Except.noConfusion h
      · rw [if_neg hr] at h
        have ht := Except.ok.inj h
        have h1 : df6' = df6 := congrArg Prod.fst ht
        have h2 := congrArg (fun t => t.2.1) ht
        have h3 := congrArg (fun t => t.2.2) ht
        simp only at h2 h3
        subst h1
        exact ⟨dw1, rfl, hs, h2.symm, h3.symm, Bool.not_eq_true _ ▸ hr⟩

/-- A successful sort requires the supplier column and only permutes rows. -/
theorem sortDataE_ok_elim {df df6 : DF} (h : sortDataE df = .ok df6) :
    df.hasSupplier = true ∧
      df6 = { df with rows := df.rows.insertionSort (rowLe df.hasDP df.hasOD) } := by
  unfold sortDataE at h
  by_cases hs : df.hasSupplier = true
  · rw [if_pos hs] at h
    exact ⟨hs, by simpa using h.symm⟩
  · rw [if_neg hs] at h; cases h

/-- Flags are untouched by one date-column step. -/
theorem dateColStep_flags (role : String) (present : Bool) (dfw : DF × List Warn) :
    (dateColStep role present dfw).1.hasSupplier = dfw.1.hasSupplier ∧
    (dateColStep role present dfw).1.hasDP = dfw.1.hasDP ∧
    (dateColStep role present dfw).1.hasDD = dfw.1.hasDD ∧
    (dateColStep role present dfw).1.hasOD = dfw.1.hasOD ∧
    (dateColStep role present dfw).1.hasDelay = dfw.1.hasDelay ∧
    (dateColStep role present dfw).1.hasDefects = dfw.1.hasDefects ∧
    (dateColStep role present dfw).1.hasQuality = dfw.1.hasQuality := by
  cases present <;> simp [dateColStep]

/-- Flags are untouched by the date-normalization step. -/
theorem normalizeDates_flags (dfw : DF × List Warn) :
    (normalizeDates dfw).1.hasSupplier = dfw.1.hasSupplier ∧
    (normalizeDates dfw).1.hasDP = dfw.1.hasDP ∧
    (normalizeDates dfw).1.hasDD = dfw.1.hasDD ∧
    (normalizeDates dfw).1.hasOD = dfw.1.hasOD ∧
    (normalizeDates dfw).1.hasDelay = dfw.1.hasDelay ∧
    (normalizeDates dfw).1.hasDefects = dfw.1.hasDefects ∧
    (normalizeDates dfw).1.hasQuality = dfw.1.hasQuality := by
  unfold normalizeDates
  obtain h1 := dateColStep_flags "date_promised" dfw.1.hasDP dfw
  obtain h2 := dateColStep_flags "date_delivered"
    (dateColStep "date_promised" dfw.1.hasDP dfw).1.hasDD
    (dateColStep "date_promised" dfw.1.hasDP dfw)
  obtain h3 := dateColStep_flags "order_date"
    (dateColStep "date_delivered"
      (dateColStep "date_promised" dfw.1.hasDP dfw).1.hasDD
      (dateColStep "date_promised" dfw.1.hasDP dfw)).1.hasOD
    (dateColStep "date_delivered"
      (dateColStep "date_promised" dfw.1.hasDP dfw).1.hasDD
      (dateColStep "date_promised" dfw.1.hasDP dfw))
  exact ⟨h3.1.trans (h2.1.trans h1.1),
    h3.2.1.trans (h2.2.1.trans h1.2.1),
    h3.2.2.1.trans (h2.2.2.1.trans h1.2.2.1),
    h3.2.2.2.1.trans (h2.2.2.2.1.trans h1.2.2.2.1),
    h3.2.2.2.2.1.trans (h2.2.2.2.2.1.trans h1.2.2.2.2.1),
    h3.2.2.2.2.2.1.trans (h2.2.2.2.2.2.1.trans h1.2.2.2.2.2.1),
    h3.2.2.2.2.2.2.trans (h2.2.2.2.2.2.2.trans h1.2.2.2.2.2.2)⟩

/-- With an existing delay column, `_compute_delay` only rewrites the
delay cells: all flags are unchanged. -/
theorem computeDelay_flags_of_delay {df : DF} (now : ℤ) (tc : String)
    (h : df.hasDelay = true) :
    computeDelay now tc df =
      { df with rows := df.rows.map (fun r =>
          { r with delay := .num (max 0 ((toNumeric r.delay).getD 0)) }) } := by
  unfold computeDelay
  rw [if_pos h]

/-- The defect-normalization step changes only the defect column; it
always leaves a defects column behind. -/
theorem normalizeDefects_flags (tc : String) (dfw : DF × List Warn) :
    (normalizeDefects tc dfw).1.hasSupplier = dfw.1.hasSupplier ∧
    (normalizeDefects tc dfw).1.hasDP = dfw.1.hasDP ∧
    (normalizeDefects tc dfw).1.hasDD = dfw.1.hasDD ∧
    (normalizeDefects tc dfw).1.hasOD = dfw.1.hasOD ∧
    (normalizeDefects tc dfw).1.hasDelay = dfw.1.hasDelay ∧
    (normalizeDefects tc dfw).1.hasQuality = dfw.1.hasQuality ∧
    (normalizeDefects tc dfw).1.hasDefects = true := by
  simp only [normalizeDefects]
  split_ifs <;>
    (refine ⟨rfl, rfl, rfl, rfl, rfl, rfl, ?_⟩ <;> first | rfl | assumption | simp_all)

/-- The supplier-cleaning step changes no flags. -/
theorem cleanSuppliers_flags (dfw : DF × List Warn) :
    (cleanSuppliers dfw).1.hasSupplier = dfw.1.hasSupplier ∧
    (cleanSuppliers dfw).1.hasDP = dfw.1.hasDP ∧
    (cleanSuppliers dfw).1.hasDD = dfw.1.hasDD ∧
    (cleanSuppliers dfw).1.hasOD = dfw.1.hasOD ∧
    (cleanSuppliers dfw).1.hasDelay = dfw.1.hasDelay ∧
    (cleanSuppliers dfw).1.hasQuality = dfw.1.hasQuality ∧
    (cleanSuppliers dfw).1.hasDefects = dfw.1.hasDefects := by
  simp only [cleanSuppliers]
  split_ifs <;> exact ⟨rfl, rfl, rfl, rfl, rfl, rfl, rfl⟩

end DataNormalizer

/-- Setting a column flag other than `date_promised` leaves `hasDP`. -/
theorem setFlag_hasDP_of_ne {role : String} (df : DF)
    (h : role ≠ "date_promised") : (df.setFlag role).hasDP = df.hasDP := by
  unfold DF.setFlag
  split_ifs <;> simp_all

/-- Setting a column flag other than `date_delivered` leaves `hasDD`. -/
theorem setFlag_hasDD_of_ne {role : String} (df : DF)
    (h : role ≠ "date_delivered") : (df.setFlag role).hasDD = df.hasDD := by
  unfold DF.setFlag
  split_ifs <;> simp_all

/-- Setting any column flag preserves an already-set `hasDelay`. -/
theorem setFlag_hasDelay_mono {role : String} (df : DF)
    (h : df.hasDelay = true) : (df.setFlag role).hasDelay = true := by
  unfold DF.setFlag
  split_ifs <;> simp_all

/-- Mapping a column to the delay role sets `hasDelay`. -/
theorem setFlag_delay (df : DF) : (df.setFlag "delay").hasDelay = true := by
  simp [DF.setFlag]

namespace DataNormalizer

/-- Mapping application leaves `hasDP`/`hasDD` untouched when no approved
mapping targets the two date roles. -/
theorem applyGo_dates (raw : RawDF) :
    ∀ (ms : List MappingDict) (df : DF) (ws : List Warn) (dw : DF × List Warn),
      applyMappingsGo raw ms df ws = .ok dw →
      (∀ m ∈ ms, m.target_role ≠ some "date_promised" ∧
        m.target_role ≠ some "date_delivered") →
      dw.1.hasDP = df.hasDP ∧ dw.1.hasDD = df.hasDD := by
  intro ms
  induction ms with
  | nil =>
    intro df ws dw h _
    obtain rfl := Except.ok.inj h
    exact ⟨rfl, rfl⟩
  | cons m rest ih =>
    intro df ws dw h hno
    have htail : ∀ m2 ∈ rest, m2.target_role ≠ some "date_promised" ∧
        m2.target_role ≠ some "date_delivered" :=
      fun m2 hm2 => hno m2 (List.mem_cons_of_mem _ hm2)
    unfold applyMappingsGo at h
    cases hsc : m.source_column with
    | none => rw [hsc] at h; exact Except.noConfusion h
    | some src =>
      cases htr : m.target_role with
      | none => rw [hsc, htr] at h; exact Except.noConfusion h
      | some role =>
        rw [hsc, htr] at h
        simp only at h
        have hrole := hno m (List.mem_cons_self _ _)
        rw [htr] at hrole
        have hdp : role ≠ "date_promised" := fun hh => hrole.1 (by rw [hh])
        have hdd : role ≠ "date_delivered" := fun hh => hrole.2 (by rw [hh])
        by_cases hig : role = "ignore"
        · rw [if_pos hig] at h
          exact ih df ws dw h htail
        · rw [if_neg hig] at h
          cases hlk : raw.lookup src with
          | none =>
            rw [hlk] at h
            exact ih df _ dw h htail
          | some vals =>
            rw [hlk] at h
            have hrec := ih _ _ dw h htail
            refine ⟨hrec.1.trans ?_, hrec.2.trans ?_⟩
            · exact setFlag_hasDP_of_ne df hdp
            · exact setFlag_hasDD_of_ne df hdd

/-- Mapping application never erases an already-present delay column. -/
theorem applyGo_delay_mono (raw : RawDF) :
    ∀ (ms : List MappingDict) (df : DF) (ws : List Warn) (dw : DF × List Warn),
      applyMappingsGo raw ms df ws = .ok dw →
      df.hasDelay = true → dw.1.hasDelay = true := by
  intro ms
  induction ms with
  | nil =>
    intro df ws dw h hd
    obtain rfl := Except.ok.inj h
    exact hd
  | cons m rest ih =>
    intro df ws dw h hd
    unfold applyMappingsGo at h
    cases hsc : m.source_column with
    | none => rw [hsc] at h; exact Except.noConfusion h
    | some src =>
      cases htr : m.target_role with
      | none => rw [hsc, htr] at h; exact Except.noConfusion h
      | some role =>
        rw [hsc, htr] at h
        simp only at h
        by_cases hig : role = "ignore"
        · rw [if_pos hig] at h; exact ih df ws dw h hd
        · rw [if_neg hig] at h
          cases hlk : raw.lookup src with
          | none => rw [hlk] at h; exact ih df _ dw h hd
          | some vals =>
            rw [hlk] at h
            exact ih _ _ dw h (setFlag_hasDelay_mono df hd)

/-- A mapping that targets the delay role with an existing source column
makes the mapped frame carry a delay column. -/
theorem applyGo_delay_set (raw : RawDF) :
    ∀ (ms : List MappingDict) (df : DF) (ws : List Warn) (dw : DF × List Warn),
      applyMappingsGo raw ms df ws = .ok dw →
      (∃ m ∈ ms, m.target_role = some "delay" ∧
        ∃ src, m.source_column = some src ∧ (raw.lookup src).isSome = true) →
      dw.1.hasDelay = true := by
  intro ms
  induction ms with
  | nil =>
    intro df ws dw _ hex
    obtain ⟨m, hm, _⟩ := hex
    cases hm
  | cons m rest ih =>
    intro df ws dw h hex
    unfold applyMappingsGo at h
    obtain ⟨m0, hm0, htr0, src0, hsc0, hlk0⟩ := hex
    rcases List.mem_cons.mp hm0 with rfl | hm0tail
    · rw [hsc0, htr0] at h
      simp only at h
      rw [if_neg (by decide : ¬ ("delay" : String) = "ignore")] at h
      cases hlk : raw.lookup src0 with
      | none => rw [hlk] at hlk0; cases hlk0
      | some vals =>
        rw [hlk] at h
        exact applyGo_delay_mono raw rest _ _ dw h (setFlag_delay df)
    · cases hsc : m.source_column with
      | none => rw [hsc] at h; exact Except.noConfusion h
      | some src =>
        cases htr : m.target_role with
        | none => rw [hsc, htr] at h; exact Except.noConfusion h
        | some role =>
          rw [hsc, htr] at h
          simp only at h
          by_cases hig : role = "ignore"
          · rw [if_pos hig] at h
            exact ih df ws dw h ⟨m0, hm0tail, htr0, src0, hsc0, hlk0⟩
          · rw [if_neg hig] at h
            cases hlk : raw.lookup src with
            | none =>
              rw [hlk] at h
              exact ih df _ dw h ⟨m0, hm0tail, htr0, src0, hsc0, hlk0⟩
            | some vals =>
              rw [hlk] at h
              exact ih _ _ dw h ⟨m0, hm0tail, htr0, src0, hsc0, hlk0⟩

end DataNormalizer

/-! ### C10 — delay short-circuit in `_compute_delay` -/

/-- C10: if the approved mappings include a working delay mapping and no
date mappings, `_compute_delay` takes its early-return branch after
coercing and clamping the delay, so any dataframe returned by `normalize`
carries no `date_promised` or `date_delivered` column at all — the
dummy-date compatibility shim runs only when the mapped data has no delay
column. -/
theorem C10_delay_short_circuit (now : ℤ) (raw : RawDF) (ms : List MappingDict)
    (tc : String) (res : NormResult) (out : DF)
    (hdelay : ∃ m ∈ ms, m.target_role = some "delay" ∧
      ∃ src, m.source_column = some src ∧ (raw.lookup src).isSome = true)
    (hnodates : ∀ m ∈ ms, m.target_role ≠ some "date_promised" ∧
      m.target_role ≠ some "date_delivered")
    (hok : DataNormalizer.normalize now raw ms tc = .ok res)
    (hdf : res.dataframe = some out) :
    out.hasDP = false ∧ out.hasDD = false := by
  obtain ⟨ws, valid, hbody, _, _⟩ := DataNormalizer.normalize_ok_elim hok hdf
  obtain ⟨dw1, happly, hsort, _, _, _⟩ := DataNormalizer.bodyE_ok_elim hbody
  have hdates := DataNormalizer.applyGo_dates raw ms {} [] dw1 happly hnodates
  have hdelay1 := DataNormalizer.applyGo_delay_set raw ms {} [] dw1 happly hdelay
  -- track the flags through the pipeline
  have hdatesN := DataNormalizer.normalizeDates_flags dw1
  set d2 := (DataNormalizer.normalizeDates dw1).1 with hd2
  have hdelay2 : d2.hasDelay = true := hdatesN.2.2.2.2.1.trans hdelay1
  have hcd := DataNormalizer.computeDelay_flags_of_delay now tc hdelay2
  have hdefF := DataNormalizer.normalizeDefects_flags tc
    (DataNormalizer.computeDelay now tc d2, (DataNormalizer.normalizeDates dw1).2)
  have hclF := DataNormalizer.cleanSuppliers_flags
    (DataNormalizer.normalizeDefects tc
      (DataNormalizer.computeDelay now tc d2, (DataNormalizer.normalizeDates dw1).2))
  obtain ⟨hsup5, hout⟩ := DataNormalizer.sortDataE_ok_elim hsort
  have hpip : (DataNormalizer.pipeline now tc dw1).1 =
      (DataNormalizer.cleanSuppliers
        (DataNormalizer.normalizeDefects tc
          (DataNormalizer.computeDelay now tc d2,
            (DataNormalizer.normalizeDates dw1).2))).1 := rfl
  rw [hpip] at hout
  subst hout
  constructor
  · show (DataNormalizer.cleanSuppliers _).1.hasDP = false
    rw [hclF.2.1, hdefF.2.1, hcd]
    show d2.hasDP = false
    rw [hdatesN.2.1]
    rw [hdates.1]
  · show (DataNormalizer.cleanSuppliers _).1.hasDD = false
    rw [hclF.2.2.1, hdefF.2.2.1, hcd]
    show d2.hasDD = false
    rw [hdatesN.2.2.1]
    rw [hdates.2]

/-- Concrete input for the C10 witness: a supplier column and a delay
column, no date columns. -/
def C10raw : RawDF := ⟨[("s", [Cell.str "A"]), ("d", [Cell.num 2])]⟩

/-- Approved mappings for the C10 witness. -/
def C10ms : List MappingDict :=
  [⟨some "s", some "supplier", true⟩, ⟨some "d", some "delay", true⟩]

/-- The result of the C10 witness run. -/
def C10res : NormResult :=
  match DataNormalizer.normalize 0 C10raw C10ms "mixed" with
  | .ok r => r
  | .error _ => ⟨false, none, [], ""⟩

/-- The output frame of the C10 witness run. -/
def C10out : DF := C10res.dataframe.getD {}

/-! ### Row-level invariant lemmas for C1 and C5 -/

namespace DataNormalizer

/-- The defect-column construction of `_normalize_defects` before the final
range check (`llm_ingestion.py:653-713`): branch selection plus the
unconditional creation of the column. -/
def defectsBody (tc : String) (df : DF) : DF :=
  let df1 :=
    if df.hasQuality && !df.hasDefects then
      let qs := df.rows.map (fun r => (toNumeric r.quality_score).getD 100)
      if qs.any (fun q => decide (1 < q)) then
        { df with
          hasDefects := true,
          rows := df.rows.map (fun r =>
            { r with defects := .num (
                (100 - clip 0 100 ((toNumeric r.quality_score).getD 100)) / 100) }) }
      else
        { df with
          hasDefects := true,
          rows := df.rows.map (fun r =>
            { r with defects := .num (
                1 - clip 0 1 ((toNumeric r.quality_score).getD 100)) }) }
    else if df.hasDefects then
      let ds := df.rows.map (fun r => (toNumeric r.defects).getD 0)
      if ds.any (fun q => decide (1 < q)) then
        { df with rows := df.rows.map (fun r =>
            { r with defects := .num (((toNumeric r.defects).getD 0) / 100) }) }
      else
        { df with rows := df.rows.map (fun r =>
            { r with defects := .num (clip 0 1 ((toNumeric r.defects).getD 0)) }) }
    else if tc = "delay_only" then
      { df with
        hasDefects := true,
        rows := df.rows.map (fun r => { r with defects := .num 0 }) }
    else df
  if df1.hasDefects then df1
  else { df1 with
         hasDefects := true,
         rows := df1.rows.map (fun r => { r with defects := .num 0 }) }

/-- The final range check and clip of `_normalize_defects`
(`llm_ingestion.py:715-727`). -/
def defectsFinal (df2 : DF) (ws : List Warn) : DF × List Warn :=
  let invalid := df2.rows.countP (fun r =>
    decide (cellQ r.defects < 0 ∨ 1 < cellQ r.defects))
  if 0 < invalid then
    ({ df2 with rows := df2.rows.map (fun r =>
        { r with defects := .num (clip 0 1 (cellQ r.defects)) }) },
     ws ++ [{ severity := "warning",
              message := toString invalid ++ " defect values were outside [0,1] and clipped",
              column := some "defects", row_count := invalid }])
  else (df2, ws)

/-- `_normalize_defects` is the branch construction followed by the range
check. -/
theorem normalizeDefects_decomp (tc : String) (dfw : DF × List Warn) :
    normalizeDefects tc dfw = defectsFinal (defectsBody tc dfw.1) dfw.2 := rfl

/-- Every branch of the defect construction produces a numeric defect cell
in every row. -/
theorem defectsBody_num (tc : String) (df : DF) :
    ∀ r ∈ (defectsBody tc df).rows, ∃ q, r.defects = Cell.num q := by
  simp only [defectsBody]
  split_ifs <;>
    intro r hr <;>
    (try simp only [List.map_map, List.mem_map] at hr) <;>
    first
      | (obtain ⟨r0, hr0, rfl⟩ := hr
         exact ⟨_, rfl⟩)
      | (exfalso; simp_all)

/-- The range check leaves only numeric defect values inside [0, 1]: either
everything already was in range, or the offending rows are clipped. -/
theorem defectsFinal_bound (df2 : DF) (ws : List Warn)
    (hnum : ∀ r ∈ df2.rows, ∃ q, r.defects = Cell.num q) :
    ∀ r ∈ (defectsFinal df2 ws).1.rows,
      ∃ q, r.defects = Cell.num q ∧ 0 ≤ q ∧ q ≤ 1 := by
  have hclip : ∀ q : ℚ, 0 ≤ clip 0 1 q ∧ clip 0 1 q ≤ 1 := by
    intro q
    exact ⟨le_max_left _ _, max_le (by norm_num) (min_le_left _ _)⟩
  simp only [defectsFinal]
  split_ifs with hinv
  · intro r hr
    simp only [List.mem_map] at hr
    obtain ⟨r0, hr0, rfl⟩ := hr
    exact ⟨_, rfl, (hclip _).1, (hclip _).2⟩
  · intro r hr
    rw [Nat.not_lt, Nat.le_zero, List.countP_eq_zero] at hinv
    have hb := hinv r hr
    obtain ⟨q, hq⟩ := hnum r hr
    simp only [decide_eq_true_eq, not_or, not_lt, hq, cellQ] at hb
    exact ⟨q, hq, hb.1, hb.2⟩

/-- After defect normalization every row carries a numeric defect value in
[0, 1]: the branch arithmetic lands in range and the final clip-with-warning
block catches anything that escaped. -/
theorem normalizeDefects_defects_bound (tc : String) (dfw : DF × List Warn) :
    ∀ r ∈ (normalizeDefects tc dfw).1.rows,
      ∃ q, r.defects = Cell.num q ∧ 0 ≤ q ∧ q ≤ 1 := by
  rw [normalizeDefects_decomp]
  exact defectsFinal_bound _ _ (defectsBody_num tc dfw.1)

set_option maxHeartbeats 1600000 in
/-- With a delay column present in the output of `_compute_delay`, every
row carries a numeric non-negative delay value. -/
theorem computeDelay_delay_bound (now : ℤ) (tc : String) (df : DF) :
    (computeDelay now tc df).hasDelay = true →
    ∀ r ∈ (computeDelay now tc df).rows, ∃ q, r.delay = Cell.num q ∧ 0 ≤ q := by
  simp only [computeDelay]
  split_ifs <;>
    intro hd r hr <;>
    (try simp only [List.map_map, List.mem_map] at hr) <;>
    first
      | (obtain ⟨r0, hr0, rfl⟩ := hr
         exact ⟨_, rfl, le_max_left _ _⟩)
      | (obtain ⟨r0, hr0, rfl⟩ := hr
         refine ⟨_, rfl, ?_⟩
         cases hp : r0.date_promised <;> cases hq : r0.date_delivered <;>
           simp [hp, hq] <;> first | exact le_max_left _ _ | norm_num)
      | (obtain ⟨r0, hr0, rfl⟩ := hr
         exact ⟨_, rfl, le_refl 0⟩)
      | (exact absurd hd (by simp_all))
      | (exfalso; simp_all)

set_option maxHeartbeats 1600000 in
/-- Defect normalization rewrites only the defect column of each row. -/
theorem normalizeDefects_preserve (tc : String) (dfw : DF × List Warn) :
    ∀ r ∈ (normalizeDefects tc dfw).1.rows,
      ∃ r0 ∈ dfw.1.rows, r.delay = r0.delay ∧ r.supplier = r0.supplier ∧
        r.date_promised = r0.date_promised ∧ r.date_delivered = r0.date_delivered ∧
        r.order_date = r0.order_date ∧ r.quality_score = r0.quality_score := by
  simp only [normalizeDefects]
  split_ifs <;>
    intro r hr <;>
    (try simp only [List.map_map, List.mem_map] at hr) <;>
    first
      | (obtain ⟨r0, hr0, rfl⟩ := hr
         exact ⟨r0, hr0, rfl, rfl, rfl, rfl, rfl, rfl⟩)
      | exact ⟨r, hr, rfl, rfl, rfl, rfl, rfl, rfl⟩
      | (exfalso; simp_all)

/-- Supplier cleaning rewrites only the supplier column of each row. -/
theorem cleanSuppliers_preserve (dfw : DF × List Warn) :
    ∀ r ∈ (cleanSuppliers dfw).1.rows,
      ∃ r0 ∈ dfw.1.rows, r.delay = r0.delay ∧ r.defects = r0.defects ∧
        r.date_promised = r0.date_promised ∧ r.date_delivered = r0.date_delivered := by
  simp only [cleanSuppliers]
  split_ifs <;>
    intro r hr <;>
    (try simp only [List.map_map, List.mem_map] at hr) <;>
    first
      | (obtain ⟨r0, hr0, rfl⟩ := hr
         exact ⟨r0, hr0, rfl, rfl, rfl, rfl⟩)
      | exact ⟨r, hr, rfl, rfl, rfl, rfl⟩
      | (exfalso; simp_all)

end DataNormalizer

/-! ### C1 — output invariants: defects in [0,1], delay non-negative -/

/-- C1: every dataframe handed back by `normalize` satisfies the row
invariants: every row carries a numeric defect value in [0, 1] (whatever
the input scale: 0-1 rates, 0-100 percentages, quality scores on either
scale), and — whenever a delay column is present — a numeric delay value
≥ 0 (negative date differences and negative raw delay inputs both clamp to
0).  A mapped frame with neither a delay column nor both date columns (and
a non-defects-only target case) has no delay column at all, so the delay
invariant is stated for the frames that carry one. -/
theorem C1_normalize_output_invariants (now : ℤ) (raw : RawDF)
    (ms : List MappingDict) (tc : String) (res : NormResult) (out : DF)
    (hok : DataNormalizer.normalize now raw ms tc = .ok res)
    (hdf : res.dataframe = some out) :
    (∀ r ∈ out.rows, ∃ q, r.defects = Cell.num q ∧ 0 ≤ q ∧ q ≤ 1) ∧
    (out.hasDelay = true →
      ∀ r ∈ out.rows, ∃ q, r.delay = Cell.num q ∧ 0 ≤ q) := by
  obtain ⟨ws, valid, hbody, _, _⟩ := DataNormalizer.normalize_ok_elim hok hdf
  obtain ⟨dw1, happly, hsort, _, _, _⟩ := DataNormalizer.bodyE_ok_elim hbody
  obtain ⟨hsup5, hout⟩ := DataNormalizer.sortDataE_ok_elim hsort
  have hpipe : (DataNormalizer.pipeline now tc dw1).1 =
      (DataNormalizer.cleanSuppliers
        (DataNormalizer.normalizeDefects tc
          (DataNormalizer.computeDelay now tc (DataNormalizer.normalizeDates dw1).1,
            (DataNormalizer.normalizeDates dw1).2))).1 := rfl
  rw [hpipe] at hout
  have hmem : ∀ r ∈ out.rows,
      r ∈ (DataNormalizer.cleanSuppliers
        (DataNormalizer.normalizeDefects tc
          (DataNormalizer.computeDelay now tc (DataNormalizer.normalizeDates dw1).1,
            (DataNormalizer.normalizeDates dw1).2))).1.rows := by
    intro r hr
    rw [hout] at hr
    exact (List.mem_insertionSort _).mp hr
  constructor
  · intro r hr
    obtain ⟨r1, hr1, _, hdef1, _, _⟩ :=
      DataNormalizer.cleanSuppliers_preserve _ _ (hmem r hr)
    obtain ⟨q, hq, h0, h1⟩ := DataNormalizer.normalizeDefects_defects_bound _ _ _ hr1
    exact ⟨q, hdef1.trans hq, h0, h1⟩
  · intro hdelay r hr
    have hd5 : (DataNormalizer.cleanSuppliers
        (DataNormalizer.normalizeDefects tc
          (DataNormalizer.computeDelay now tc (DataNormalizer.normalizeDates dw1).1,
            (DataNormalizer.normalizeDates dw1).2))).1.hasDelay = true := by
      rw [hout] at hdelay
      exact hdelay
    have hd4 := (DataNormalizer.cleanSuppliers_flags _).2.2.2.2.1.symm.trans hd5
    have hd3 := (DataNormalizer.normalizeDefects_flags tc _).2.2.2.2.1.symm.trans hd4
    obtain ⟨r1, hr1, hdel1, _, _, _⟩ :=
      DataNormalizer.cleanSuppliers_preserve _ _ (hmem r hr)
    obtain ⟨r2, hr2, hdel2, _, _, _, _, _⟩ :=
      DataNormalizer.normalizeDefects_preserve tc _ _ hr1
    obtain ⟨q, hq, h0⟩ :=
      DataNormalizer.computeDelay_delay_bound now tc _ hd3 _ hr2
    exact ⟨q, (hdel1.trans hdel2).trans hq, h0⟩

/-- Input for the C1 witness: percent-scale defects (including an
out-of-range 150), a negative raw delay, and whitespace around a supplier
name. -/
def C1raw : RawDF :=
  ⟨[("fournisseur", [Cell.str " Acme ", Cell.str "Bolt"]),
    ("retard", [Cell.num (-3), Cell.num 7]),
    ("defauts", [Cell.num 150, Cell.num 5])]⟩

/-- Approved mappings for the C1 witness. -/
def C1ms : List MappingDict :=
  [⟨some "fournisseur", some "supplier", true⟩,
   ⟨some "retard", some "delay", true⟩,
   ⟨some "defauts", some "defects", true⟩]

/-- The result of the C1 witness run. -/
def C1res : NormResult :=
  match DataNormalizer.normalize 0 C1raw C1ms "mixed" with
  | .ok r => r
  | .error _ => ⟨false, none, [], ""⟩

/-- The output frame of the C1 witness run. -/
def C1out : DF := C1res.dataframe.getD {}

/-- Witness for C1: a concrete run with a negative raw delay and a defect
value of 150 (percent scale beyond 100) still satisfies both invariants. -/
theorem C1_normalize_output_invariants_witness :
    DataNormalizer.normalize 0 C1raw C1ms "mixed" = .ok C1res ∧
    C1res.dataframe = some C1out ∧
    ((∀ r ∈ C1out.rows, ∃ q, r.defects = Cell.num q ∧ 0 ≤ q ∧ q ≤ 1) ∧
      (C1out.hasDelay = true →
        ∀ r ∈ C1out.rows, ∃ q, r.delay = Cell.num q ∧ 0 ≤ q)) :=
  ⟨by decide, by decide,
    C1_normalize_output_invariants 0 C1raw C1ms "mixed" C1res C1out
      (by decide) (by decide)⟩

/-- Witness for C10 at a concrete delay-only mapping. -/
theorem C10_delay_short_circuit_witness :
    (∃ m ∈ C10ms, m.target_role = some "delay" ∧
      ∃ src, m.source_column = some src ∧ (C10raw.lookup src).isSome = true) ∧
    (∀ m ∈ C10ms, m.target_role ≠ some "date_promised" ∧
      m.target_role ≠ some "date_delivered") ∧
    DataNormalizer.normalize 0 C10raw C10ms "mixed" = .ok C10res ∧
    C10res.dataframe = some C10out ∧
    (C10out.hasDP = false ∧ C10out.hasDD = false) :=
  ⟨by decide, by decide, by decide, by decide,
    C10_delay_short_circuit 0 C10raw C10ms "mixed" C10res C10out
      (by decide) (by decide) (by decide) (by decide)⟩

/-! ### C5 — idempotence of `normalize` on its own canonical output -/
/-! ### C5 development -/

theorem dropWhile_idem (p : Char → Bool) (l : List Char) :
    (l.dropWhile p).dropWhile p = l.dropWhile p := by
  induction l with
  | nil => rfl
  | cons a t ih =>
    by_cases h : p a = true
    · simp [List.dropWhile_cons, h, ih]
    · simp [List.dropWhile_cons, h]

theorem stripLeft_idem (l : List Char) : stripLeft (stripLeft l) = stripLeft l :=
  dropWhile_idem _ _

theorem stripRight_idem (l : List Char) : stripRight (stripRight l) = stripRight l := by
  unfold stripRight
  rw [List.reverse_reverse, dropWhile_idem]

theorem stripLeft_stripRight (l : List Char) (h : stripLeft l = l) :
    stripLeft (stripRight l) = stripRight l := by
  have hpre : stripRight l <+: l := by
    have hsuf : l.reverse.dropWhile isSpaceChar <:+ l.reverse := List.dropWhile_suffix _
    have h2 := (List.reverse_prefix).mpr hsuf
    simpa [stripRight, List.reverse_reverse] using h2
  cases hsr : stripRight l with
  | nil => rfl
  | cons b bs =>
    rw [hsr] at hpre
    obtain ⟨t, ht⟩ := hpre
    have hl : l = b :: (bs ++ t) := by rw [← ht]; simp
    have hpb : isSpaceChar b = false := by
      by_contra hb
      have hb' : isSpaceChar b = true := by simpa using hb
      have h3 := h
      rw [hl] at h3
      unfold stripLeft at h3
      rw [List.dropWhile_cons, if_pos hb'] at h3
      have hlen := congrArg List.length h3
      have hle := (List.dropWhile_suffix (l := bs ++ t) isSpaceChar).sublist.length_le
      simp only [List.length_cons] at hlen
      omega
    unfold stripLeft
    rw [List.dropWhile_cons, if_neg (by simp [hpb])]

theorem stripChars_idem (l : List Char) : stripChars (stripChars l) = stripChars l := by
  show stripRight (stripLeft (stripRight (stripLeft l))) = stripRight (stripLeft l)
  rw [stripLeft_stripRight (stripLeft l) (stripLeft_idem l), stripRight_idem]

theorem pyStrip_idem (s : String) : pyStrip (pyStrip s) = pyStrip s := by
  show String.mk (stripChars (String.mk (stripChars s.toList)).toList) = _
  have h : (String.mk (stripChars s.toList)).toList = stripChars s.toList := rfl
  rw [h, stripChars_idem]
  rfl

theorem zipWith_map_right {α β γ : Type} (f : α → β → γ) (g : α → β) :
    ∀ l : List α, List.zipWith f l (l.map g) = l.map (fun x => f x (g x))
  | [] => rfl
  | a :: t => by
    simp only [List.map_cons, List.zipWith_cons_cons]
    rw [zipWith_map_right f g t]

theorem map_eq_self_of {α : Type} {f : α → α} (l : List α)
    (h : ∀ a ∈ l, f a = a) : l.map f = l := by
  rw [List.map_congr_left h]
  simp

theorem mem_zipWith {α β γ : Type} {f : α → β → γ} :
    ∀ {as : List α} {bs : List β} {c : γ},
      c ∈ List.zipWith f as bs → ∃ a ∈ as, ∃ b ∈ bs, c = f a b := by
  intro as
  induction as with
  | nil => intro bs c h; simp at h
  | cons a t ih =>
    intro bs c h
    cases bs with
    | nil => simp at h
    | cons b bt =>
      rw [List.zipWith_cons_cons] at h
      rcases List.mem_cons.mp h with rfl | h2
      · exact ⟨a, List.mem_cons_self _ _, b, List.mem_cons_self _ _, rfl⟩
      · obtain ⟨a1, ha1, b1, hb1, rfl⟩ := ih h2
        exact ⟨a1, List.mem_cons_of_mem _ ha1, b1, List.mem_cons_of_mem _ hb1, rfl⟩

/-- A cell that is either a parsed date or null (the shape of every cell in
a normalized date column). -/
def dateLike (c : Cell) : Prop := (∃ d, c = Cell.date d) ∨ c = Cell.null

theorem normalizeDateCol_shape (cells : List Cell) :
    ∀ c ∈ normalizeDateCol cells, dateLike c := by
  intro c hc
  simp only [normalizeDateCol, List.mem_map] at hc
  obtain ⟨o, _, rfl⟩ := hc
  cases o with
  | none => exact Or.inr rfl
  | some d => exact Or.inl ⟨d, rfl⟩

theorem countSome_parse_eq (i : ℕ) (cells : List Cell)
    (h : ∀ c ∈ cells, dateLike c) :
    countSome (cells.map (parseCellFmt i)) = countNonNull cells := by
  unfold countSome countNonNull
  rw [List.countP_map]
  refine List.countP_congr ?_
  intro c hc
  rcases h c hc with ⟨d, rfl⟩ | rfl <;> simp [parseCellFmt]

theorem normalizeDateCol_id (cells : List Cell) (h : ∀ c ∈ cells, dateLike c) :
    normalizeDateCol cells = cells := by
  have hcount := countSome_parse_eq 0 cells h
  have hrange : List.range 9 = 0 :: [1, 2, 3, 4, 5, 6, 7, 8] := rfl
  have h1 : tryFmts cells (countNonNull cells) (0 :: [1, 2, 3, 4, 5, 6, 7, 8]) =
      some (cells.map (parseCellFmt 0)) := by
    unfold tryFmts
    rw [if_pos]
    rw [hcount]
    omega
  simp only [normalizeDateCol]
  rw [hrange, h1]
  simp only []
  rw [if_neg (by rw [hcount]; omega)]
  rw [List.map_map]
  refine map_eq_self_of cells ?_
  intro c hc
  rcases h c hc with ⟨d, rfl⟩ | rfl <;> rfl

namespace DataNormalizer

theorem dateColStep_rows_of_true (role : String) (dfw : DF × List Warn) :
    (dateColStep role true dfw).1.rows =
      dfw.1.rows.zipWith (fun r v => Row.setRole role v r)
        (normalizeDateCol (dfw.1.getCol role)) := rfl

theorem dateColStep_false (role : String) (dfw : DF × List Warn) :
    dateColStep role false dfw = dfw := rfl

theorem dateColStep_warns (role : String) (p : Bool) (dfw : DF × List Warn) :
    ∀ w ∈ (dateColStep role p dfw).2, w ∈ dfw.2 ∨ w.column = some role := by
  cases p
  · intro w hw; exact Or.inl hw
  · intro w hw
    simp only [dateColStep] at hw
    revert hw
    split_ifs <;> intro hw
    all_goals first
      | exact absurd trivial (by assumption)
      | exact Or.inl hw
      | (rcases List.mem_append.mp hw with h | h
         · exact Or.inl h
         · rw [List.mem_singleton] at h
           subst h
           exact Or.inr rfl)

theorem dateColStep_id (role : String) (p : Bool) (dfw : DF × List Warn)
    (hset : ∀ r : Row, Row.setRole role (Row.getRole role r) r = r)
    (h : ∀ r ∈ dfw.1.rows, dateLike (Row.getRole role r)) :
    (dateColStep role p dfw).1 = dfw.1 := by
  cases p
  · rfl
  · have hcells : ∀ c ∈ dfw.1.getCol role, dateLike c := by
      intro c hc
      simp only [DF.getCol, List.mem_map] at hc
      obtain ⟨r, hr, rfl⟩ := hc
      exact h r hr
    have hrows : (dateColStep role true dfw).1.rows = dfw.1.rows := by
      rw [dateColStep_rows_of_true, normalizeDateCol_id _ hcells]
      show dfw.1.rows.zipWith _ (dfw.1.rows.map (Row.getRole role)) = _
      rw [zipWith_map_right]
      exact map_eq_self_of _ (fun r _ => hset r)
    have he : (dateColStep role true dfw).1 =
        { dfw.1 with rows := (dateColStep role true dfw).1.rows } := rfl
    rw [he, hrows]

theorem dateColStep_shape_set (role : String) (dfw : DF × List Warn)
    (hget : ∀ (r : Row) (v : Cell), Row.getRole role (Row.setRole role v r) = v) :
    ∀ r ∈ (dateColStep role true dfw).1.rows, dateLike (Row.getRole role r) := by
  intro r hr
  rw [dateColStep_rows_of_true] at hr
  obtain ⟨a, _, b, hb, rfl⟩ := mem_zipWith hr
  rw [hget]
  exact normalizeDateCol_shape _ _ hb

theorem dateColStep_mem (role : String) (p : Bool) (dfw : DF × List Warn) :
    ∀ r ∈ (dateColStep role p dfw).1.rows,
      ∃ r0 ∈ dfw.1.rows, ∃ c, r = Row.setRole role c r0 ∨ r = r0 := by
  cases p
  · intro r hr
    exact ⟨r, hr, .null, Or.inr rfl⟩
  · intro r hr
    rw [dateColStep_rows_of_true] at hr
    obtain ⟨a, ha, b, _, rfl⟩ := mem_zipWith hr
    exact ⟨a, ha, b, Or.inl rfl⟩

theorem dateColStep_pres (role : String) (p : Bool) (dfw : DF × List Warn)
    (P : Row → Prop)
    (hP : ∀ (r : Row) (c : Cell), P r → P (Row.setRole role c r))
    (h : ∀ r ∈ dfw.1.rows, P r) :
    ∀ r ∈ (dateColStep role p dfw).1.rows, P r := by
  intro r hr
  obtain ⟨r0, hr0, c, hc | hc⟩ := dateColStep_mem role p dfw r hr
  · rw [hc]; exact hP r0 c (h r0 hr0)
  · rw [hc]; exact h r0 hr0

theorem dateColStep_flags2 (role : String) (p : Bool) (dfw : DF × List Warn) :
    (dateColStep role p dfw).1.hasSupplier = dfw.1.hasSupplier ∧
    (dateColStep role p dfw).1.hasDP = dfw.1.hasDP ∧
    (dateColStep role p dfw).1.hasDD = dfw.1.hasDD ∧
    (dateColStep role p dfw).1.hasOD = dfw.1.hasOD ∧
    (dateColStep role p dfw).1.hasDelay = dfw.1.hasDelay ∧
    (dateColStep role p dfw).1.hasDefects = dfw.1.hasDefects ∧
    (dateColStep role p dfw).1.hasQuality = dfw.1.hasQuality := by
  cases p <;> exact ⟨rfl, rfl, rfl, rfl, rfl, rfl, rfl⟩

theorem normalizeDates_shapes (dfw : DF × List Warn) :
    ((normalizeDates dfw).1.hasDP = true →
      ∀ r ∈ (normalizeDates dfw).1.rows, dateLike r.date_promised) ∧
    ((normalizeDates dfw).1.hasDD = true →
      ∀ r ∈ (normalizeDates dfw).1.rows, dateLike r.date_delivered) ∧
    ((normalizeDates dfw).1.hasOD = true →
      ∀ r ∈ (normalizeDates dfw).1.rows, dateLike r.order_date) := by
  have hflags := normalizeDates_flags dfw
  refine ⟨?_, ?_, ?_⟩
  · intro hfl r hr
    have hdp : dfw.1.hasDP = true := by rw [← hflags.2.1]; exact hfl
    refine dateColStep_pres "order_date" _ _
      (fun r => dateLike r.date_promised) (fun r c hc => hc) ?_ r hr
    refine dateColStep_pres "date_delivered" _ _
      (fun r => dateLike r.date_promised) (fun r c hc => hc) ?_
    intro r1 hr1
    rw [hdp] at hr1
    exact dateColStep_shape_set "date_promised" dfw (fun r v => rfl) r1 hr1
  · intro hfl r hr
    have f1 := dateColStep_flags2 "date_promised" dfw.1.hasDP dfw
    have hdd : (dateColStep "date_promised" dfw.1.hasDP dfw).1.hasDD = true := by
      rw [f1.2.2.1, ← hflags.2.2.1]; exact hfl
    refine dateColStep_pres "order_date" _ _
      (fun r => dateLike r.date_delivered) (fun r c hc => hc) ?_ r hr
    intro r1 hr1
    rw [hdd] at hr1
    exact dateColStep_shape_set "date_delivered" _ (fun r v => rfl) r1 hr1
  · intro hfl r hr
    have hod : (dateColStep "date_delivered"
        (dateColStep "date_promised" dfw.1.hasDP dfw).1.hasDD
        (dateColStep "date_promised" dfw.1.hasDP dfw)).1.hasOD = true := by
      have f1 := dateColStep_flags2 "date_promised" dfw.1.hasDP dfw
      have f2 := dateColStep_flags2 "date_delivered"
        (dateColStep "date_promised" dfw.1.hasDP dfw).1.hasDD
        (dateColStep "date_promised" dfw.1.hasDP dfw)
      rw [f2.2.2.2.1, f1.2.2.2.1, ← hflags.2.2.2.1]
      exact hfl
    have hr2 : r ∈ (dateColStep "order_date"
        (dateColStep "date_delivered"
          (dateColStep "date_promised" dfw.1.hasDP dfw).1.hasDD
          (dateColStep "date_promised" dfw.1.hasDP dfw)).1.hasOD
        (dateColStep "date_delivered"
          (dateColStep "date_promised" dfw.1.hasDP dfw).1.hasDD
          (dateColStep "date_promised" dfw.1.hasDP dfw))).1.rows := hr
    rw [hod] at hr2
    exact dateColStep_shape_set "order_date" _ (fun r v => rfl) r hr2

theorem normalizeDates_id (dfw : DF × List Warn)
    (hdp : dfw.1.hasDP = true → ∀ r ∈ dfw.1.rows, dateLike r.date_promised)
    (hdd : dfw.1.hasDD = true → ∀ r ∈ dfw.1.rows, dateLike r.date_delivered)
    (hod : dfw.1.hasOD = true → ∀ r ∈ dfw.1.rows, dateLike r.order_date) :
    (normalizeDates dfw).1 = dfw.1 ∧
    ∀ w ∈ (normalizeDates dfw).2, w ∈ dfw.2 ∨ w.column = some "date_promised" ∨
      w.column = some "date_delivered" ∨ w.column = some "order_date" := by
  have h1 : (dateColStep "date_promised" dfw.1.hasDP dfw).1 = dfw.1 := by
    cases hb : dfw.1.hasDP
    · rfl
    · exact dateColStep_id "date_promised" true dfw (fun r => rfl) (hdp hb)
  have h2 : (dateColStep "date_delivered"
      (dateColStep "date_promised" dfw.1.hasDP dfw).1.hasDD
      (dateColStep "date_promised" dfw.1.hasDP dfw)).1 =
      (dateColStep "date_promised" dfw.1.hasDP dfw).1 := by
    cases hb : (dateColStep "date_promised" dfw.1.hasDP dfw).1.hasDD
    · rfl
    · refine dateColStep_id "date_delivered" true _ (fun r => rfl) ?_
      rw [h1] at hb ⊢
      exact hdd hb
  have h3 : (normalizeDates dfw).1 =
      (dateColStep "date_delivered"
        (dateColStep "date_promised" dfw.1.hasDP dfw).1.hasDD
        (dateColStep "date_promised" dfw.1.hasDP dfw)).1 := by
    show (dateColStep "order_date" _ _).1 = _
    cases hb : (dateColStep "date_delivered"
        (dateColStep "date_promised" dfw.1.hasDP dfw).1.hasDD
        (dateColStep "date_promised" dfw.1.hasDP dfw)).1.hasOD
    · rfl
    · refine dateColStep_id "order_date" true _ (fun r => rfl) ?_
      rw [h2, h1] at hb ⊢
      exact hod hb
  refine ⟨by rw [h3, h2, h1], ?_⟩
  intro w hw
  have hw3 := dateColStep_warns "order_date"
    (dateColStep "date_delivered"
      (dateColStep "date_promised" dfw.1.hasDP dfw).1.hasDD
      (dateColStep "date_promised" dfw.1.hasDP dfw)).1.hasOD _ w hw
  rcases hw3 with hw3 | hw3
  · have hw2 := dateColStep_warns "date_delivered"
      (dateColStep "date_promised" dfw.1.hasDP dfw).1.hasDD _ w hw3
    rcases hw2 with hw2 | hw2
    · have hw1 := dateColStep_warns "date_promised" dfw.1.hasDP dfw w hw2
      rcases hw1 with hw1 | hw1
      · exact Or.inl hw1
      · exact Or.inr (Or.inl hw1)
    · exact Or.inr (Or.inr (Or.inl hw2))
  · exact Or.inr (Or.inr (Or.inr hw3))

end DataNormalizer

namespace DataNormalizer

set_option maxHeartbeats 1600000 in
theorem computeDelay_shape_dates (now : ℤ) (tc : String) (df : DF)
    (hdp : df.hasDP = true → ∀ r ∈ df.rows, dateLike r.date_promised)
    (hdd : df.hasDD = true → ∀ r ∈ df.rows, dateLike r.date_delivered)
    (hod : df.hasOD = true → ∀ r ∈ df.rows, dateLike r.order_date) :
    ((computeDelay now tc df).hasDP = true →
      ∀ r ∈ (computeDelay now tc df).rows, dateLike r.date_promised) ∧
    ((computeDelay now tc df).hasDD = true →
      ∀ r ∈ (computeDelay now tc df).rows, dateLike r.date_delivered) := by
  simp only [computeDelay]
  by_cases hDel : df.hasDelay = true
  · rw [if_pos hDel]
    constructor <;> intro hflag r hr <;> simp only [List.mem_map] at hr <;>
      obtain ⟨r0, hr0, rfl⟩ := hr
    · exact hdp hflag r0 hr0
    · exact hdd hflag r0 hr0
  · rw [if_neg hDel]
    by_cases hDts : (df.hasDP && df.hasDD) = true
    · rw [if_pos hDts]
      obtain ⟨hdp2, hdd2⟩ : df.hasDP = true ∧ df.hasDD = true := by
        simpa [Bool.and_eq_true] using hDts
      split_ifs with h4
      · constructor <;> intro hflag r hr <;> simp only [List.mem_map] at hr <;>
          obtain ⟨r0, hr0, rfl⟩ := hr
        · exact hdp hdp2 r0 hr0
        · exact hdd hdd2 r0 hr0
      · exact absurd hdp2 h4
    · rw [if_neg hDts]
      by_cases hTc : tc = "defects_only"
      · rw [if_pos hTc]
        split_ifs with h4 h5
        · constructor <;> intro hflag r hr <;> simp only [List.mem_map] at hr <;>
            obtain ⟨r0, hr0, rfl⟩ := hr
          · exact hdp h4 r0 hr0
          · exact hdd hflag r0 hr0
        · constructor <;> intro hflag r hr <;>
            simp only [List.map_map, List.mem_map] at hr <;>
            obtain ⟨r0, hr0, rfl⟩ := hr
          · exact hod h5 r0 hr0
          · exact hod h5 r0 hr0
        · constructor <;> intro hflag r hr <;>
            simp only [List.map_map, List.mem_map] at hr <;>
            obtain ⟨r0, hr0, rfl⟩ := hr <;>
            exact Or.inl ⟨now, rfl⟩
      · rw [if_neg hTc]
        split_ifs with h4 h5
        · constructor <;> intro hflag r hr
          · exact hdp h4 r hr
          · exact hdd hflag r hr
        · constructor <;> intro hflag r hr <;> simp only [List.mem_map] at hr <;>
            obtain ⟨r0, hr0, rfl⟩ := hr
          · exact hod h5 r0 hr0
          · exact hod h5 r0 hr0
        · constructor <;> intro hflag r hr <;> simp only [List.mem_map] at hr <;>
            obtain ⟨r0, hr0, rfl⟩ := hr <;>
            exact Or.inl ⟨now, rfl⟩

theorem computeDelay_id (now : ℤ) (tc : String) (df : DF)
    (hd : df.hasDelay = true)
    (h : ∀ r ∈ df.rows, ∃ q, r.delay = Cell.num q ∧ 0 ≤ q) :
    computeDelay now tc df = df := by
  rw [computeDelay_flags_of_delay now tc hd]
  have hrows : df.rows.map (fun r =>
      { r with delay := Cell.num (max 0 ((toNumeric r.delay).getD 0)) }) = df.rows := by
    refine map_eq_self_of _ ?_
    intro r hr
    obtain ⟨q, hq, h0⟩ := h r hr
    rw [hq]
    show ({ r with delay := Cell.num (max 0 q) } : Row) = r
    rw [max_eq_right h0, ← hq]
  rw [hrows]

theorem normalizeDefects_id (tc : String) (dfw : DF × List Warn)
    (hd : dfw.1.hasDefects = true)
    (h : ∀ r ∈ dfw.1.rows, ∃ q, r.defects = Cell.num q ∧ 0 ≤ q ∧ q ≤ 1) :
    normalizeDefects tc dfw = dfw := by
  obtain ⟨⟨f1, f2, f3, f4, f5, f6, f7, rr⟩, ws0⟩ := dfw
  simp only at hd h
  subst hd
  have hany : (rr.map (fun r => (toNumeric r.defects).getD 0)).any
      (fun q => decide (1 < q)) = false := by
    rw [List.any_eq_false]
    intro x hx
    simp only [List.mem_map] at hx
    obtain ⟨r, hr, rfl⟩ := hx
    obtain ⟨q, hq, h0, h1⟩ := h r hr
    rw [hq]
    simp only [toNumeric, Option.getD_some, decide_eq_true_eq]
    exact not_lt.mpr h1
  have hrows : rr.map (fun r =>
      { r with defects := Cell.num (clip 0 1 ((toNumeric r.defects).getD 0)) }) =
      rr := by
    refine map_eq_self_of _ ?_
    intro r hr
    obtain ⟨q, hq, h0, h1⟩ := h r hr
    rw [hq]
    show ({ r with defects := Cell.num (clip 0 1 q) } : Row) = r
    rw [show clip 0 1 q = q from by unfold clip; rw [min_eq_right h1, max_eq_right h0],
      ← hq]
  rw [normalizeDefects_decomp]
  have hbody : defectsBody tc ⟨f1, f2, f3, f4, f5, true, f7, rr⟩ =
      ⟨f1, f2, f3, f4, f5, true, f7, rr⟩ := by
    simp only [defectsBody, hany, hrows, Bool.not_true, Bool.and_false,
      Bool.false_eq_true, ite_true, ite_false]
  have hcount : rr.countP (fun r =>
      decide (cellQ r.defects < 0 ∨ 1 < cellQ r.defects)) = 0 := by
    rw [List.countP_eq_zero]
    intro r hr
    obtain ⟨q, hq, h0, h1⟩ := h r hr
    simp only [hq, cellQ, decide_eq_true_eq, not_or, not_lt]
    exact ⟨h0, h1⟩
  have hfin : defectsFinal ⟨f1, f2, f3, f4, f5, true, f7, rr⟩ ws0 =
      (⟨f1, f2, f3, f4, f5, true, f7, rr⟩, ws0) := by
    simp only [defectsFinal]
    rw [hcount, if_neg (by omega)]
  rw [hbody, hfin]

theorem cleanSuppliers_id (dfw : DF × List Warn)
    (hS : dfw.1.hasSupplier = true)
    (h : ∀ r ∈ dfw.1.rows, ∃ s, r.supplier = Cell.str (pyStrip s)) :
    (cleanSuppliers dfw).1 = dfw.1 ∧
    ∀ w ∈ (cleanSuppliers dfw).2, w ∈ dfw.2 ∨ w.column = some "supplier" := by
  have hrows : dfw.1.rows.map (fun r =>
      { r with supplier := Cell.str (pyStrip (pyStr r.supplier)) }) = dfw.1.rows := by
    refine map_eq_self_of _ ?_
    intro r hr
    obtain ⟨s, hs⟩ := h r hr
    rw [hs]
    show ({ r with supplier := Cell.str (pyStrip (pyStrip s)) } : Row) = r
    rw [pyStrip_idem, ← hs]
  have hneg : ((!dfw.1.hasSupplier) = true) = False := by
    rw [hS]
    simp
  constructor
  · simp only [cleanSuppliers]
    rw [if_neg (by rw [hS]; simp), hrows]
    split_ifs <;> rfl
  · intro w hw
    simp only [cleanSuppliers] at hw
    rw [if_neg (show ¬ (!dfw.1.hasSupplier) = true by rw [hS]; simp)] at hw
    revert hw
    split_ifs <;> intro hw
    · rcases List.mem_append.mp hw with h2 | h2
      · exact Or.inl h2
      · rw [List.mem_singleton] at h2
        subst h2
        exact Or.inr rfl
    · exact Or.inl hw

theorem cleanSuppliers_shape (dfw : DF × List Warn)
    (hS : dfw.1.hasSupplier = true) :
    ∀ r ∈ (cleanSuppliers dfw).1.rows, ∃ s, r.supplier = Cell.str (pyStrip s) := by
  intro r hr
  simp only [cleanSuppliers] at hr
  rw [if_neg (show ¬ (!dfw.1.hasSupplier) = true by rw [hS]; simp)] at hr
  revert hr
  split_ifs <;> intro hr <;>
    (simp only [List.mem_map] at hr
     obtain ⟨r0, _, rfl⟩ := hr
     exact ⟨pyStr r0.supplier, rfl⟩)

end DataNormalizer

theorem zipWith_map_both {α β γ δ : Type} (f : γ → β → δ) (g : α → γ) (h : α → β) :
    ∀ l : List α, List.zipWith f (l.map g) (l.map h) = l.map (fun x => f (g x) (h x))
  | [] => rfl
  | a :: t => by
    simp only [List.map_cons, List.zipWith_cons_cons]
    rw [zipWith_map_both f g h t]

namespace DataNormalizer

theorem validateData_true_nonempty (df : DF) (ws : List Warn)
    (h : (validateData df ws).1 = true) : df.rows.length ≠ 0 := by
  intro hlen
  unfold validateData at h
  split at h
  split at h
  split at h
  rw [if_pos hlen] at h
  exact Bool.false_ne_true h

theorem validateData_pass (df : DF) (ws : List Warn)
    (hS : df.hasSupplier = true) (hD : df.hasDelay = true) (hF : df.hasDefects = true)
    (hneg : df.rows.countP (fun r => decide (cellQ r.delay < 0)) = 0)
    (hinv : df.rows.countP (fun r =>
      decide (cellQ r.defects < 0 ∨ 1 < cellQ r.defects)) = 0)
    (hlen : ¬ df.rows.length = 0) :
    validateData df ws = (true, ws) := by
  simp only [validateData, hS, hD, hF, hneg, hinv, Bool.not_true, Bool.false_eq_true,
    ite_false, ite_true, Nat.lt_irrefl]
  rw [if_neg hlen]

/-- The canonical projection of a row: the five canonical columns survive
the identity re-mapping, the auxiliary roles are not re-mapped. -/
def canonRow5 (r : Row) : Row :=
  { supplier := r.supplier, date_promised := r.date_promised,
    date_delivered := r.date_delivered, order_date := .null,
    delay := r.delay, defects := r.defects, quality_score := .null }

/-- Re-materialize a canonical output frame as a raw input frame carrying
the five canonical columns. -/
def rawOfDF (df : DF) : RawDF :=
  ⟨[("supplier", df.getCol "supplier"),
    ("date_promised", df.getCol "date_promised"),
    ("date_delivered", df.getCol "date_delivered"),
    ("delay", df.getCol "delay"),
    ("defects", df.getCol "defects")]⟩

/-- Identity mappings of the five canonical columns. -/
def idMappings : List MappingDict :=
  [⟨some "supplier", some "supplier", true⟩,
   ⟨some "date_promised", some "date_promised", true⟩,
   ⟨some "date_delivered", some "date_delivered", true⟩,
   ⟨some "delay", some "delay", true⟩,
   ⟨some "defects", some "defects", true⟩]

/-- The frame produced by applying the identity mappings to a canonical
output. -/
def canonDF (rows : List Row) : DF :=
  { hasSupplier := true, hasDP := true, hasDD := true, hasOD := false,
    hasDelay := true, hasDefects := true, hasQuality := false,
    rows := rows.map canonRow5 }

theorem applyMappings_id_raw (c1 c2 c3 c4 c5 : List Cell) :
    applyMappings ⟨[("supplier", c1), ("date_promised", c2), ("date_delivered", c3),
      ("delay", c4), ("defects", c5)]⟩ idMappings =
    .ok (⟨true, true, true, false, true, true, false,
      List.zipWith (fun r v => Row.setRole "defects" v r)
        (List.zipWith (fun r v => Row.setRole "delay" v r)
          (List.zipWith (fun r v => Row.setRole "date_delivered" v r)
            (List.zipWith (fun r v => Row.setRole "date_promised" v r)
              (c1.map (fun v => Row.setRole "supplier" v {})) c2) c3) c4) c5⟩,
      []) := rfl

theorem chain_eq (rows : List Row) :
    List.zipWith (fun r v => Row.setRole "defects" v r)
      (List.zipWith (fun r v => Row.setRole "delay" v r)
        (List.zipWith (fun r v => Row.setRole "date_delivered" v r)
          (List.zipWith (fun r v => Row.setRole "date_promised" v r)
            ((rows.map (Row.getRole "supplier")).map (fun v => Row.setRole "supplier" v {}))
            (rows.map (Row.getRole "date_promised")))
          (rows.map (Row.getRole "date_delivered")))
        (rows.map (Row.getRole "delay")))
      (rows.map (Row.getRole "defects")) = rows.map canonRow5 := by
  rw [List.map_map, zipWith_map_both, zipWith_map_both, zipWith_map_both,
    zipWith_map_both]
  exact List.map_congr_left (fun r _ => rfl)

theorem applyMappings_id (df : DF) :
    applyMappings (rawOfDF df) idMappings = .ok (canonDF df.rows, []) := by
  have h1 := applyMappings_id_raw (df.rows.map (Row.getRole "supplier"))
    (df.rows.map (Row.getRole "date_promised"))
    (df.rows.map (Row.getRole "date_delivered"))
    (df.rows.map (Row.getRole "delay"))
    (df.rows.map (Row.getRole "defects"))
  have h2 : rawOfDF df = ⟨[("supplier", df.rows.map (Row.getRole "supplier")),
    ("date_promised", df.rows.map (Row.getRole "date_promised")),
    ("date_delivered", df.rows.map (Row.getRole "date_delivered")),
    ("delay", df.rows.map (Row.getRole "delay")),
    ("defects", df.rows.map (Row.getRole "defects"))]⟩ := rfl
  rw [h2, h1]
  exact congrArg (fun l => Except.ok
    ((⟨true, true, true, false, true, true, false, l⟩ : DF), ([] : List Warn)))
    (chain_eq df.rows)

theorem idMappings_ctorOk : idMappings.all (fun m => m.ctorOk) = true := rfl

end DataNormalizer

namespace DataNormalizer

theorem normalize_canon {now : ℤ} {raw : RawDF} {ms : List MappingDict}
    {tc : String} {res : NormResult} {df : DF}
    (hok : normalize now raw ms tc = .ok res)
    (hsucc : res.success = true)
    (hdf : res.dataframe = some df) :
    (∀ r ∈ df.rows, ∃ s, r.supplier = Cell.str (pyStrip s)) ∧
    (df.hasDP = true → ∀ r ∈ df.rows, dateLike r.date_promised) ∧
    (df.hasDD = true → ∀ r ∈ df.rows, dateLike r.date_delivered) ∧
    (df.hasDelay = true → ∀ r ∈ df.rows, ∃ q, r.delay = Cell.num q ∧ 0 ≤ q) ∧
    (∀ r ∈ df.rows, ∃ q, r.defects = Cell.num q ∧ 0 ≤ q ∧ q ≤ 1) ∧
    df.rows ≠ [] ∧
    List.Sorted (rowLe df.hasDP df.hasOD) df.rows := by
  obtain ⟨ws, valid, hbody, hsv, _⟩ := normalize_ok_elim hok hdf
  obtain ⟨dw1, happly, hsort, _, hvalid, _⟩ := bodyE_ok_elim hbody
  obtain ⟨hsup5, hout⟩ := sortDataE_ok_elim hsort
  subst hout
  have hpipe : (pipeline now tc dw1).1 =
      (cleanSuppliers (normalizeDefects tc
        (computeDelay now tc (normalizeDates dw1).1, (normalizeDates dw1).2))).1 := rfl
  have hmem : ∀ r ∈ (pipeline now tc dw1).1.rows.insertionSort
      (rowLe (pipeline now tc dw1).1.hasDP (pipeline now tc dw1).1.hasOD),
      r ∈ (cleanSuppliers (normalizeDefects tc
        (computeDelay now tc (normalizeDates dw1).1, (normalizeDates dw1).2))).1.rows := by
    intro r hr
    have h2 := (List.mem_insertionSort _).mp hr
    rw [hpipe] at h2
    exact h2
  refine ⟨?_, ?_, ?_, ?_, ?_, ?_, ?_⟩
  · intro r hr
    have hSin : (normalizeDefects tc (computeDelay now tc (normalizeDates dw1).1,
        (normalizeDates dw1).2)).1.hasSupplier = true := by
      have hc := cleanSuppliers_flags (normalizeDefects tc
        (computeDelay now tc (normalizeDates dw1).1, (normalizeDates dw1).2))
      rw [← hc.1, ← hpipe]
      exact hsup5
    exact cleanSuppliers_shape _ hSin r (hmem r hr)
  · intro hfl r hr
    have hc := cleanSuppliers_flags (normalizeDefects tc
      (computeDelay now tc (normalizeDates dw1).1, (normalizeDates dw1).2))
    have hn := normalizeDefects_flags tc
      (computeDelay now tc (normalizeDates dw1).1, (normalizeDates dw1).2)
    have hfl' : (pipeline now tc dw1).1.hasDP = true := hfl
    rw [hpipe, hc.2.1, hn.2.1] at hfl'
    have hshapes := computeDelay_shape_dates now tc (normalizeDates dw1).1
      (normalizeDates_shapes dw1).1 (normalizeDates_shapes dw1).2.1
      (normalizeDates_shapes dw1).2.2
    obtain ⟨r1, hr1, _, _, hdp1, hdd1⟩ := cleanSuppliers_preserve _ r (hmem r hr)
    obtain ⟨r2, hr2, _, _, hdp2, hdd2, _, _⟩ := normalizeDefects_preserve tc _ r1 hr1
    have h3 := hshapes.1 hfl' r2 hr2
    show dateLike r.date_promised
    rw [hdp1, hdp2]
    exact h3
  · intro hfl r hr
    have hc := cleanSuppliers_flags (normalizeDefects tc
      (computeDelay now tc (normalizeDates dw1).1, (normalizeDates dw1).2))
    have hn := normalizeDefects_flags tc
      (computeDelay now tc (normalizeDates dw1).1, (normalizeDates dw1).2)
    have hfl' : (pipeline now tc dw1).1.hasDD = true := hfl
    rw [hpipe, hc.2.2.1, hn.2.2.1] at hfl'
    have hshapes := computeDelay_shape_dates now tc (normalizeDates dw1).1
      (normalizeDates_shapes dw1).1 (normalizeDates_shapes dw1).2.1
      (normalizeDates_shapes dw1).2.2
    obtain ⟨r1, hr1, _, _, hdp1, hdd1⟩ := cleanSuppliers_preserve _ r (hmem r hr)
    obtain ⟨r2, hr2, _, _, hdp2, hdd2, _, _⟩ := normalizeDefects_preserve tc _ r1 hr1
    have h3 := hshapes.2 hfl' r2 hr2
    show dateLike r.date_delivered
    rw [hdd1, hdd2]
    exact h3
  · intro hfl r hr
    have hc := cleanSuppliers_flags (normalizeDefects tc
      (computeDelay now tc (normalizeDates dw1).1, (normalizeDates dw1).2))
    have hn := normalizeDefects_flags tc
      (computeDelay now tc (normalizeDates dw1).1, (normalizeDates dw1).2)
    have hfl' : (pipeline now tc dw1).1.hasDelay = true := hfl
    rw [hpipe, hc.2.2.2.2.1, hn.2.2.2.2.1] at hfl'
    obtain ⟨r1, hr1, hdel1, _, _, _⟩ := cleanSuppliers_preserve _ r (hmem r hr)
    obtain ⟨r2, hr2, hdel2, _, _, _, _, _⟩ := normalizeDefects_preserve tc _ r1 hr1
    obtain ⟨q, hq, h0⟩ := computeDelay_delay_bound now tc _ hfl' r2 hr2
    exact ⟨q, (hdel1.trans hdel2).trans hq, h0⟩
  · intro r hr
    obtain ⟨r1, hr1, _, hdef1, _, _⟩ := cleanSuppliers_preserve _ r (hmem r hr)
    obtain ⟨q, hq, h0, h1⟩ := normalizeDefects_defects_bound tc _ r1 hr1
    exact ⟨q, hdef1.trans hq, h0, h1⟩
  · have hv : (validateData (pipeline now tc dw1).1 (pipeline now tc dw1).2).1 = true := by
      rw [← hvalid, ← hsv]
      exact hsucc
    have hlen := validateData_true_nonempty _ _ hv
    intro hnil
    have hlen2 := congrArg List.length hnil
    simp only [List.length_nil] at hlen2
    have hperm := List.perm_insertionSort
      (rowLe (pipeline now tc dw1).1.hasDP (pipeline now tc dw1).1.hasOD)
      (pipeline now tc dw1).1.rows
    rw [hperm.length_eq] at hlen2
    exact hlen hlen2
  · show List.Sorted (rowLe (pipeline now tc dw1).1.hasDP (pipeline now tc dw1).1.hasOD)
      ((pipeline now tc dw1).1.rows.insertionSort
        (rowLe (pipeline now tc dw1).1.hasDP (pipeline now tc dw1).1.hasOD))
    exact List.sorted_insertionSort _ _

end DataNormalizer

open DataNormalizer in
/-- C5: running `normalize` a second time on its own already-canonical
successful output, with identity mappings of the canonical columns and the
same target case, yields the same canonical dataset: the run succeeds, the
five canonical columns (supplier, both dates, delay, defects) are unchanged
row by row — in particular delay and defects values are unchanged — and no
further clamping is triggered (no warning about the defects column is
emitted). -/
theorem C5_normalize_idempotent (now now2 : ℤ) (raw : RawDF)
    (ms : List MappingDict) (tc : String) (res : NormResult) (df : DF)
    (hok : DataNormalizer.normalize now raw ms tc = .ok res)
    (hsucc : res.success = true)
    (hdf : res.dataframe = some df)
    (hDP : df.hasDP = true) (hDD : df.hasDD = true)
    (hDelay : df.hasDelay = true) (hDef : df.hasDefects = true) :
    ∃ res2, DataNormalizer.normalize now2 (DataNormalizer.rawOfDF df)
        DataNormalizer.idMappings tc = .ok res2 ∧
      res2.success = true ∧
      ∃ df2, res2.dataframe = some df2 ∧
        df2.rows.map (fun r => (r.supplier, r.date_promised, r.date_delivered,
          r.delay, r.defects)) =
        df.rows.map (fun r => (r.supplier, r.date_promised, r.date_delivered,
          r.delay, r.defects)) ∧
        ∀ w ∈ res2.warnings, w.column ≠ some "defects" := by
  obtain ⟨hsup, hdpS, hddS, hdelS, hdefS, hne, hsorted⟩ := normalize_canon hok hsucc hdf
  have hmemC : ∀ r' ∈ (canonDF df.rows).rows, ∃ r0 ∈ df.rows, r' = canonRow5 r0 := by
    intro r' hr'
    have hr2 : r' ∈ df.rows.map canonRow5 := hr'
    simp only [List.mem_map] at hr2
    obtain ⟨r0, hr0, rfl⟩ := hr2
    exact ⟨r0, hr0, rfl⟩
  have hdpC : ∀ r' ∈ (canonDF df.rows).rows, dateLike r'.date_promised := by
    intro r' hr'
    obtain ⟨r0, hr0, rfl⟩ := hmemC r' hr'
    exact hdpS hDP r0 hr0
  have hddC : ∀ r' ∈ (canonDF df.rows).rows, dateLike r'.date_delivered := by
    intro r' hr'
    obtain ⟨r0, hr0, rfl⟩ := hmemC r' hr'
    exact hddS hDD r0 hr0
  have hodC : ∀ r' ∈ (canonDF df.rows).rows, dateLike r'.order_date := by
    intro r' hr'
    obtain ⟨r0, hr0, rfl⟩ := hmemC r' hr'
    exact Or.inr rfl
  have hdelC : ∀ r' ∈ (canonDF df.rows).rows,
      ∃ q, r'.delay = Cell.num q ∧ 0 ≤ q := by
    intro r' hr'
    obtain ⟨r0, hr0, rfl⟩ := hmemC r' hr'
    exact hdelS hDelay r0 hr0
  have hdefC : ∀ r' ∈ (canonDF df.rows).rows,
      ∃ q, r'.defects = Cell.num q ∧ 0 ≤ q ∧ q ≤ 1 := by
    intro r' hr'
    obtain ⟨r0, hr0, rfl⟩ := hmemC r' hr'
    exact hdefS r0 hr0
  have hsupC : ∀ r' ∈ (canonDF df.rows).rows,
      ∃ s, r'.supplier = Cell.str (pyStrip s) := by
    intro r' hr'
    obtain ⟨r0, hr0, rfl⟩ := hmemC r' hr'
    exact hsup r0 hr0
  have hnd := normalizeDates_id (canonDF df.rows, [])
    (fun _ => hdpC) (fun _ => hddC) (fun _ => hodC)
  have hnd1 : (normalizeDates (canonDF df.rows, [])).1 = canonDF df.rows := hnd.1
  have hcd : computeDelay now2 tc (canonDF df.rows) = canonDF df.rows :=
    computeDelay_id now2 tc (canonDF df.rows) rfl hdelC
  have hdefid : normalizeDefects tc (canonDF df.rows,
      (normalizeDates (canonDF df.rows, [])).2) =
      (canonDF df.rows, (normalizeDates (canonDF df.rows, [])).2) :=
    normalizeDefects_id tc _ rfl hdefC
  have hclean := cleanSuppliers_id (canonDF df.rows,
      (normalizeDates (canonDF df.rows, [])).2) rfl hsupC
  have hpipe1 : (pipeline now2 tc (canonDF df.rows, [])).1 = canonDF df.rows := by
    show (cleanSuppliers (normalizeDefects tc
      (computeDelay now2 tc (normalizeDates (canonDF df.rows, [])).1,
        (normalizeDates (canonDF df.rows, [])).2))).1 = canonDF df.rows
    rw [hnd1, hcd, hdefid]
    exact hclean.1
  have hpipew : ∀ w ∈ (pipeline now2 tc (canonDF df.rows, [])).2,
      w.column ≠ some "defects" := by
    intro w hw
    have hw2 : w ∈ (cleanSuppliers (normalizeDefects tc
      (computeDelay now2 tc (normalizeDates (canonDF df.rows, [])).1,
        (normalizeDates (canonDF df.rows, [])).2))).2 := hw
    rw [hnd1, hcd, hdefid] at hw2
    rcases hclean.2 w hw2 with h2 | h2
    · rcases hnd.2 w h2 with h3 | h3 | h3 | h3
      · exact absurd h3 (List.not_mem_nil w)
      · rw [h3]; decide
      · rw [h3]; decide
      · rw [h3]; decide
    · rw [h2]; decide
  have hnegC : (canonDF df.rows).rows.countP
      (fun r => decide (cellQ r.delay < 0)) = 0 := by
    rw [List.countP_eq_zero]
    intro r' hr'
    obtain ⟨q, hq, h0⟩ := hdelC r' hr'
    simp only [hq, cellQ, decide_eq_true_eq, not_lt]
    exact h0
  have hinvC : (canonDF df.rows).rows.countP (fun r =>
      decide (cellQ r.defects < 0 ∨ 1 < cellQ r.defects)) = 0 := by
    rw [List.countP_eq_zero]
    intro r' hr'
    obtain ⟨q, hq, h0, h1⟩ := hdefC r' hr'
    simp only [hq, cellQ, decide_eq_true_eq, not_or, not_lt]
    exact ⟨h0, h1⟩
  have hlenC : ¬ (canonDF df.rows).rows.length = 0 := by
    intro h0
    rw [show (canonDF df.rows).rows = df.rows.map canonRow5 from rfl,
      List.length_map] at h0
    exact hne (List.length_eq_zero.mp h0)
  have hval : validateData (canonDF df.rows)
      (pipeline now2 tc (canonDF df.rows, [])).2 =
      (true, (pipeline now2 tc (canonDF df.rows, [])).2) :=
    validateData_pass _ _ rfl rfl rfl hnegC hinvC hlenC
  have hsorted2 : List.Sorted (rowLe (canonDF df.rows).hasDP
      (canonDF df.rows).hasOD) (canonDF df.rows).rows := by
    rw [hDP] at hsorted
    exact List.Pairwise.map canonRow5 (fun a b h => h) hsorted
  have hsortE : sortDataE (canonDF df.rows) = .ok (canonDF df.rows) := by
    unfold sortDataE
    rw [if_pos (show (canonDF df.rows).hasSupplier = true from rfl)]
    rw [List.Sorted.insertionSort_eq hsorted2]
  have hsumm : summaryRaises (canonDF df.rows) = false := by
    cases hrr : df.rows with
    | nil => exact absurd hrr hne
    | cons a t => rfl
  have hbody2 : bodyE now2 (rawOfDF df) idMappings tc =
      .ok (canonDF df.rows, (pipeline now2 tc (canonDF df.rows, [])).2, true) := by
    unfold bodyE
    rw [applyMappings_id df]
    simp only []
    rw [hpipe1, hsortE]
    simp only []
    rw [hval]
    simp only []
    rw [hsumm, if_neg Bool.false_ne_true]
  refine ⟨{ success := true, dataframe := some (canonDF df.rows),
            warnings := (pipeline now2 tc (canonDF df.rows, [])).2,
            detected_case := tc }, ?_, rfl, canonDF df.rows, rfl, ?_, ?_⟩
  · unfold DataNormalizer.normalize
    rw [hbody2]
    simp only []
    rw [if_pos idMappings_ctorOk]
  · show (df.rows.map canonRow5).map (fun r => (r.supplier, r.date_promised,
      r.date_delivered, r.delay, r.defects)) = _
    rw [List.map_map]
    exact List.map_congr_left (fun r _ => rfl)
  · exact hpipew

/-- Input for the C5 witness: suppliers (one padded with spaces) and two
date columns, so the first run produces all five canonical columns. -/
def C5raw : RawDF :=
  ⟨[("s", [Cell.str " B ", Cell.str "A"]),
    ("p", [Cell.date 100, Cell.date 200]),
    ("d", [Cell.date 105, Cell.date 199])]⟩

/-- Approved mappings for the C5 witness. -/
def C5ms : List MappingDict :=
  [⟨some "s", some "supplier", true⟩,
   ⟨some "p", some "date_promised", true⟩,
   ⟨some "d", some "date_delivered", true⟩]

/-- The result of the C5 witness first run. -/
def C5res : NormResult :=
  match DataNormalizer.normalize 0 C5raw C5ms "mixed" with
  | .ok r => r
  | .error _ => ⟨false, none, [], ""⟩

/-- The output frame of the C5 witness first run. -/
def C5out : DF := C5res.dataframe.getD {}

/-- Witness for C5 at a concrete two-row dataset with dates. -/
theorem C5_normalize_idempotent_witness :
    DataNormalizer.normalize 0 C5raw C5ms "mixed" = .ok C5res ∧
    C5res.success = true ∧
    C5res.dataframe = some C5out ∧
    C5out.hasDP = true ∧ C5out.hasDD = true ∧
    C5out.hasDelay = true ∧ C5out.hasDefects = true ∧
    (∃ res2, DataNormalizer.normalize 0 (DataNormalizer.rawOfDF C5out)
        DataNormalizer.idMappings "mixed" = .ok res2 ∧
      res2.success = true ∧
      ∃ df2, res2.dataframe = some df2 ∧
        df2.rows.map (fun r => (r.supplier, r.date_promised, r.date_delivered,
          r.delay, r.defects)) =
        C5out.rows.map (fun r => (r.supplier, r.date_promised, r.date_delivered,
          r.delay, r.defects)) ∧
        ∀ w ∈ res2.warnings, w.column ≠ some "defects") :=
  ⟨by decide, by decide, by decide, by decide, by decide, by decide, by decide,
    C5_normalize_idempotent 0 0 C5raw C5ms "mixed" C5res C5out
      (by decide) (by decide) (by decide) (by decide) (by decide) (by decide)
      (by decide)⟩

end SupplierDash
